import Mathlib

/-!
Verification of the basketball shot-analysis evaluation framework
(`ai-evaluation/src/data_manager.py`, `ai-evaluation/src/evaluator.py`,
`ai-evaluation/src/metrics.py`).

The Python code is shallowly embedded: pure functions become Lean
functions, Python dictionaries become association lists or explicit
lookup functions, file-system and network effects become oracle fields
on the input records, and exceptions become `Option`/`Except` results.
Timestamps (`created_at`) are modelled as naturals, numeric values as
rationals.  ASCII case mapping models Python's `str.lower`/`str.upper`
on the ASCII range.
-/

namespace BasketballEval

/-! ## Python string primitives -/

/-- ASCII lower-casing of one character, modelling Python `str.lower`
on the ASCII range. -/
def pyLowerChar (c : Char) : Char :=
  if 65 ≤ c.toNat ∧ c.toNat ≤ 90 then Char.ofNat (c.toNat + 32) else c

/-- ASCII upper-casing of one character, modelling Python `str.upper`
on the ASCII range. -/
def pyUpperChar (c : Char) : Char :=
  if 97 ≤ c.toNat ∧ c.toNat ≤ 122 then Char.ofNat (c.toNat - 32) else c

/-- Python `str.lower` (ASCII model). -/
def pyLower (s : String) : String := ⟨s.data.map pyLowerChar⟩

/-- Python `str.upper` (ASCII model). -/
def pyUpper (s : String) : String := ⟨s.data.map pyUpperChar⟩

/-! ## LabelNormalizer (`evaluator.py` lines 285-311 and the identical
copies in `metrics.py` lines 285-311) -/

/-- The `mapping` dict literal in `_normalize_shot_type`. -/
def shotTypeMapping : List (String × String) :=
  [("LAY_UP", "lay_up"), ("IN_PAINT", "in_paint"), ("MID_RANGE", "mid_range"),
   ("THREE_POINTER", "three_pointer"), ("FREE_THROW", "free_throw")]

/-- `_normalize_shot_type` from `evaluator.py` (identical copy in
`metrics.py`).  `none` models Python `None`; the empty string is falsy
in Python, hence also mapped to `None`. -/
def _normalize_shot_type (shot_type : Option String) : Option String :=
  match shot_type with
  | none => none
  | some s =>
    if s = "" then none
    else some ((shotTypeMapping.lookup (pyUpper s)).getD (pyLower s))

/-- `_normalize_result` from `metrics.py` (identical copy in
`evaluator.py`). -/
def _normalize_result (result : Option String) : Option String :=
  match result with
  | none => none
  | some s =>
    if s = "" then none
    else
      if pyUpper s = "MAKE" then some "make"
      else if pyUpper s = "MISS" then some "miss"
      else none

/-! ## DatasetSynchronizer data model (`data_manager.py`)

Rows of the three remote tables.  `created_at`/`completed_at`
timestamps are naturals (order-isomorphic to the ISO strings the store
returns), nullable text columns are `Option String`. -/

structure ClipRecord where
  id : Nat
  storage_key : String
  duration_s : Rat
  created_at : Nat
  deriving DecidableEq

structure AnalysisRecord where
  id : Nat
  clip_id : Nat
  shot_type : Option String
  result : Option String
  confidence : Option Rat
  tips_text : Option String
  completed_at : Nat
  status : String
  deriving DecidableEq

structure OverrideRecord where
  analysis_id : Nat
  field_name : String
  override_value : String
  created_at : Nat
  deriving DecidableEq

/-- One joined row as produced by `fetch_evaluation_dataset` (either
path). -/
structure CombinedRow where
  clip_id : Nat
  storage_key : String
  duration_s : Rat
  clip_created_at : Nat
  analysis_id : Nat
  original_shot_type : Option String
  original_result : Option String
  confidence : Option Rat
  tips_text : Option String
  completed_at : Nat
  ground_truth_shot_type : Option String
  ground_truth_result : Option String
  deriving DecidableEq

/-- One step of the overrides-grouping loop of `_process_fallback_data`
(`data_manager.py` lines 94-97): the incumbent entry for the key is
replaced only when the new override has a strictly larger
`created_at`. -/
def overridesDictStep (d : Nat × String → Option OverrideRecord)
    (o : OverrideRecord) : Nat × String → Option OverrideRecord :=
  fun k =>
    if k = (o.analysis_id, o.field_name) then
      match d k with
      | none => some o
      | some cur => if cur.created_at < o.created_at then some o else some cur
    else d k

/-- The `overrides_dict` built by `_process_fallback_data`, as a lookup
function keyed by `(analysis_id, field_name)`. -/
def overridesDict (overrides_data : List OverrideRecord) :
    Nat × String → Option OverrideRecord :=
  overrides_data.foldl overridesDictStep (fun _ => none)

/-- Python `dict` built from a key/value sequence, as an insertion-ordered
association list: the first occurrence of a key fixes its position, a later
occurrence updates the value in place. -/
def pyDictInsert {K V : Type} [DecidableEq K]
    (d : List (K × V)) (k : K) (v : V) : List (K × V) :=
  if k ∈ d.map Prod.fst then
    d.map (fun p => if p.1 = k then (k, v) else p)
  else d ++ [(k, v)]

/-- Items of the Python dict comprehension over a key/value sequence. -/
def pyDictOf {K V : Type} [DecidableEq K]
    (pairs : List (K × V)) : List (K × V) :=
  pairs.foldl (fun d p => pyDictInsert d p.1 p.2) []

/-- Ground-truth resolution for one field on the fallback path
(`data_manager.py` lines 120-121): the grouped override's value if one
exists for the key, else the analysis record's original value. -/
def resolveField (ovd : Nat × String → Option OverrideRecord)
    (aid : Nat) (field : String) (orig : Option String) : Option String :=
  match ovd (aid, field) with
  | some o => some o.override_value
  | none => orig

/-- The `combined` record built for one clip by `_process_fallback_data`
(`data_manager.py` lines 109-122). -/
def combineRow (clip_id : Nat) (clip : ClipRecord) (analysis : AnalysisRecord)
    (ovd : Nat × String → Option OverrideRecord) : CombinedRow :=
  { clip_id := clip_id
    storage_key := clip.storage_key
    duration_s := clip.duration_s
    clip_created_at := clip.created_at
    analysis_id := analysis.id
    original_shot_type := analysis.shot_type
    original_result := analysis.result
    confidence := analysis.confidence
    tips_text := analysis.tips_text
    completed_at := analysis.completed_at
    ground_truth_shot_type := resolveField ovd analysis.id "shot_type" analysis.shot_type
    ground_truth_result := resolveField ovd analysis.id "result" analysis.result }

/-- `_process_fallback_data` (`data_manager.py` lines 86-125): builds the
clip and analysis dicts, resolves the newest override per
`(analysis_id, field_name)`, and combines one row per clip that has an
analysis.  `analysis_data` is the already-status-filtered list the
fallback branch of `fetch_evaluation_dataset` passes in. -/
def _process_fallback_data (clips_data : List ClipRecord)
    (analysis_data : List AnalysisRecord)
    (overrides_data : List OverrideRecord) : List CombinedRow :=
  (pyDictOf (clips_data.map fun c => (c.id, c))).filterMap fun p =>
    match (pyDictOf (analysis_data.map fun a => (a.clip_id, a))).lookup p.1 with
    | none => none
    | some analysis => some (combineRow p.1 p.2 analysis (overridesDict overrides_data))

/-- The correlated subquery
`SELECT override_value FROM analysis_overrides WHERE analysis_id = a.id
AND field_name = f ORDER BY created_at DESC LIMIT 1` of the joined query
in `fetch_evaluation_dataset` (`data_manager.py` lines 50-61).  A tie in
`created_at` resolves to the earlier row, fixing one deterministic
reading of the unspecified `ORDER BY` tie order. -/
def latestOverrideSql (overrides : List OverrideRecord)
    (aid : Nat) (field : String) : Option String :=
  ((overrides.filter fun o => o.analysis_id = aid ∧ o.field_name = field).argmax
    (fun o => o.created_at)).map (fun o => o.override_value)

/-- One row of the joined query: clip joined to a successful analysis,
each ground-truth column `COALESCE`-ing the latest override onto the
original analysis value. -/
def sqlRow (c : ClipRecord) (a : AnalysisRecord)
    (overrides : List OverrideRecord) : CombinedRow :=
  { clip_id := c.id
    storage_key := c.storage_key
    duration_s := c.duration_s
    clip_created_at := c.created_at
    analysis_id := a.id
    original_shot_type := a.shot_type
    original_result := a.result
    confidence := a.confidence
    tips_text := a.tips_text
    completed_at := a.completed_at
    ground_truth_shot_type :=
      match latestOverrideSql overrides a.id "shot_type" with
      | some v => some v
      | none => a.shot_type
    ground_truth_result :=
      match latestOverrideSql overrides a.id "result" with
      | some v => some v
      | none => a.result }

/-- The single joined query of `fetch_evaluation_dataset`
(`data_manager.py` lines 38-66): `clips JOIN analysis ON c.id =
a.clip_id WHERE a.status = 'success'`, with the per-field override
`COALESCE`s, finally ordered by `c.created_at DESC` (ties keep join
order). -/
def fetchEvaluationDatasetQuery (clips : List ClipRecord)
    (analyses : List AnalysisRecord)
    (overrides : List OverrideRecord) : List CombinedRow :=
  (clips.flatMap fun c =>
    (analyses.filter fun a => a.clip_id = c.id ∧ a.status = "success").map
      fun a => sqlRow c a overrides).mergeSort
    (fun r1 r2 => r2.clip_created_at ≤ r1.clip_created_at)

/-- The accumulator step shared by both latest-override computations:
keep the first element of maximal `created_at`. -/
def maxStep (acc : Option OverrideRecord) (o : OverrideRecord) :
    Option OverrideRecord :=
  match acc with
  | none => some o
  | some cur => if cur.created_at < o.created_at then some o else some cur

/-! ## Dataset statistics (`data_manager.py` lines 212-252) -/

/-- One entry of the persisted ground-truth snapshot, as read back by
`load_ground_truth` and consumed by `get_dataset_stats`.
`video_exists` is the oracle for `Path(entry['video_path']).exists()`. -/
structure GroundTruthEntry where
  clip_id : Nat
  gt_shot_type : Option String
  gt_result : Option String
  orig_shot_type : Option String
  orig_result : Option String
  duration_s : Rat
  video_exists : Bool
  deriving DecidableEq

/-- The fully populated `stats` dict returned by `get_dataset_stats`. -/
structure DatasetStats where
  total_clips : Nat
  shot_type_distribution : List (Option String × Nat)
  result_distribution : List (Option String × Nat)
  has_user_corrections : Nat
  average_duration : Rat
  videos_downloaded : Nat
  correction_rate : Rat
  deriving DecidableEq

/-- Python `d[k] = d.get(k, 0) + 1` on an insertion-ordered dict. -/
def pyCounterIncr {K : Type} [DecidableEq K] [BEq K]
    (d : List (K × Nat)) (k : K) : List (K × Nat) :=
  pyDictInsert d k ((d.lookup k).getD 0 + 1)

/-- Loop accumulator of `get_dataset_stats` (the mutable `stats` fields
updated inside the `for entry in ground_truth` loop). -/
structure StatsAcc where
  shot_type_distribution : List (Option String × Nat)
  result_distribution : List (Option String × Nat)
  has_user_corrections : Nat
  duration_sum : Rat
  videos_downloaded : Nat

/-- One iteration of the `get_dataset_stats` loop
(`data_manager.py` lines 228-247). -/
def statsStep (s : StatsAcc) (e : GroundTruthEntry) : StatsAcc :=
  { shot_type_distribution := pyCounterIncr s.shot_type_distribution e.gt_shot_type
    result_distribution := pyCounterIncr s.result_distribution e.gt_result
    has_user_corrections :=
      if e.gt_shot_type ≠ e.orig_shot_type ∨ e.gt_result ≠ e.orig_result then
        s.has_user_corrections + 1
      else s.has_user_corrections
    duration_sum := s.duration_sum + e.duration_s
    videos_downloaded :=
      if e.video_exists then s.videos_downloaded + 1 else s.videos_downloaded }

/-- Outcome of `get_dataset_stats`: either the `{"error": ...}` dict
returned when no snapshot file exists, or the stats dict. -/
inductive StatsOutcome where
  | errorMissing
  | stats (s : DatasetStats)
  deriving DecidableEq

/-- `get_dataset_stats` (`data_manager.py` lines 212-252).  The
argument is `none` when the ground-truth file does not exist
(`load_ground_truth` raises `FileNotFoundError`, caught and turned into
the error dict).  The result is `none` when the function raises: the
final `average_duration /= len(ground_truth)` and
`correction_rate = ... / len(ground_truth)` divide by the entry count,
a `ZeroDivisionError` for an empty snapshot. -/
def get_dataset_stats (snapshot : Option (List GroundTruthEntry)) :
    Option StatsOutcome :=
  match snapshot with
  | none => some .errorMissing
  | some ground_truth =>
    if ground_truth.length = 0 then none
    else
      some (.stats
        { total_clips := ground_truth.length
          shot_type_distribution :=
            (ground_truth.foldl statsStep ⟨[], [], 0, 0, 0⟩).shot_type_distribution
          result_distribution :=
            (ground_truth.foldl statsStep ⟨[], [], 0, 0, 0⟩).result_distribution
          has_user_corrections :=
            (ground_truth.foldl statsStep ⟨[], [], 0, 0, 0⟩).has_user_corrections
          average_duration :=
            (ground_truth.foldl statsStep ⟨[], [], 0, 0, 0⟩).duration_sum /
              ground_truth.length
          videos_downloaded :=
            (ground_truth.foldl statsStep ⟨[], [], 0, 0, 0⟩).videos_downloaded
          correction_rate :=
            ((ground_truth.foldl statsStep ⟨[], [], 0, 0, 0⟩).has_user_corrections : Rat) /
              ground_truth.length })

/-! ## Run metrics (`evaluator.py` lines 213-283) -/

/-- Ground-truth label pair carried in each sample result. -/
structure GroundTruthLabels where
  shot_type : Option String
  result : Option String
  deriving DecidableEq

/-- A parsed model prediction as consumed by `_calculate_metrics`:
`none` fields model both an absent key and a JSON `null` value
(`pred.get(...)` does not distinguish them). -/
structure Prediction where
  make_miss : Option String
  range : Option String
  confidence : Option Rat
  error : Option String
  deriving DecidableEq

/-- One element of the `results` list built by `evaluate_model`. -/
structure SampleResult where
  clip_id : String
  ground_truth : GroundTruthLabels
  prediction : Prediction
  inference_time_s : Rat
  cost_usd : Rat
  deriving DecidableEq

/-- Python truthiness of an optional string: `None` and `""` are falsy,
every other string is truthy. -/
def pyTruthy : Option String → Bool
  | none => false
  | some s => s ≠ ""

/-- Python f-string rendering of an optional string (`None` prints as
`"None"`); used for the confusion-matrix keys. -/
def pyShow : Option String → String
  | none => "None"
  | some s => s

/-- The metrics dict assembled by `_calculate_metrics`. -/
structure RunMetrics where
  total_samples : Nat
  valid_predictions : Nat
  parse_success_rate : Rat
  shot_type_accuracy : Rat
  result_accuracy : Rat
  both_correct_accuracy : Rat
  average_confidence : Rat
  shot_type_confusion_matrix : List (String × Nat)
  result_confusion_matrix : List (String × Nat)
  deriving DecidableEq

/-- Loop accumulator of `_calculate_metrics`
(`evaluator.py` lines 219-226). -/
structure MetricsAcc where
  shot_type_correct : Nat
  result_correct : Nat
  both_correct : Nat
  valid_predictions : Nat
  shot_type_confusion : List (String × Nat)
  result_confusion : List (String × Nat)
  confidence_scores : List Rat

/-- One iteration of the `_calculate_metrics` loop
(`evaluator.py` lines 228-268): skip predictions with a truthy `error`
value; count per-field correctness and confusion only when both the
ground truth and the normalized prediction are truthy; count
`both_correct` on plain equality of both fields (no truthiness guard);
collect `confidence` whenever it is not `None`. -/
def metricsStep (acc : MetricsAcc) (r : SampleResult) : MetricsAcc :=
  if pyTruthy r.prediction.error then acc
  else
    { shot_type_correct :=
        if pyTruthy r.ground_truth.shot_type &&
            pyTruthy (_normalize_shot_type r.prediction.range) then
          if r.ground_truth.shot_type = _normalize_shot_type r.prediction.range then
            acc.shot_type_correct + 1
          else acc.shot_type_correct
        else acc.shot_type_correct
      result_correct :=
        if pyTruthy r.ground_truth.result &&
            pyTruthy (_normalize_result r.prediction.make_miss) then
          if r.ground_truth.result = _normalize_result r.prediction.make_miss then
            acc.result_correct + 1
          else acc.result_correct
        else acc.result_correct
      both_correct :=
        if r.ground_truth.shot_type = _normalize_shot_type r.prediction.range ∧
            r.ground_truth.result = _normalize_result r.prediction.make_miss then
          acc.both_correct + 1
        else acc.both_correct
      valid_predictions := acc.valid_predictions + 1
      shot_type_confusion :=
        if pyTruthy r.ground_truth.shot_type &&
            pyTruthy (_normalize_shot_type r.prediction.range) then
          pyCounterIncr acc.shot_type_confusion
            (pyShow r.ground_truth.shot_type ++ " -> " ++
              pyShow (_normalize_shot_type r.prediction.range))
        else acc.shot_type_confusion
      result_confusion :=
        if pyTruthy r.ground_truth.result &&
            pyTruthy (_normalize_result r.prediction.make_miss) then
          pyCounterIncr acc.result_confusion
            (pyShow r.ground_truth.result ++ " -> " ++
              pyShow (_normalize_result r.prediction.make_miss))
        else acc.result_confusion
      confidence_scores :=
        match r.prediction.confidence with
        | some c => acc.confidence_scores ++ [c]
        | none => acc.confidence_scores }

/-- `_calculate_metrics` (`evaluator.py` lines 213-283).  `none` models
the bare `{}` returned for an empty result list; otherwise the metrics
dict is built, each accuracy guarded by `if valid_predictions else 0`
and the confidence average by `if confidence_scores else 0`. -/
def _calculate_metrics (results : List SampleResult) : Option RunMetrics :=
  if results.length = 0 then none
  else
    some
      { total_samples := results.length
        valid_predictions :=
          (results.foldl metricsStep ⟨0, 0, 0, 0, [], [], []⟩).valid_predictions
        parse_success_rate :=
          ((results.foldl metricsStep ⟨0, 0, 0, 0, [], [], []⟩).valid_predictions : Rat) /
            results.length
        shot_type_accuracy :=
          if (results.foldl metricsStep ⟨0, 0, 0, 0, [], [], []⟩).valid_predictions = 0 then 0
          else ((results.foldl metricsStep ⟨0, 0, 0, 0, [], [], []⟩).shot_type_correct : Rat) /
            (results.foldl metricsStep ⟨0, 0, 0, 0, [], [], []⟩).valid_predictions
        result_accuracy :=
          if (results.foldl metricsStep ⟨0, 0, 0, 0, [], [], []⟩).valid_predictions = 0 then 0
          else ((results.foldl metricsStep ⟨0, 0, 0, 0, [], [], []⟩).result_correct : Rat) /
            (results.foldl metricsStep ⟨0, 0, 0, 0, [], [], []⟩).valid_predictions
        both_correct_accuracy :=
          if (results.foldl metricsStep ⟨0, 0, 0, 0, [], [], []⟩).valid_predictions = 0 then 0
          else ((results.foldl metricsStep ⟨0, 0, 0, 0, [], [], []⟩).both_correct : Rat) /
            (results.foldl metricsStep ⟨0, 0, 0, 0, [], [], []⟩).valid_predictions
        average_confidence :=
          if (results.foldl metricsStep ⟨0, 0, 0, 0, [], [], []⟩).confidence_scores.length = 0
          then 0
          else (results.foldl metricsStep ⟨0, 0, 0, 0, [], [], []⟩).confidence_scores.sum /
            (results.foldl metricsStep ⟨0, 0, 0, 0, [], [], []⟩).confidence_scores.length
        shot_type_confusion_matrix :=
          (results.foldl metricsStep ⟨0, 0, 0, 0, [], [], []⟩).shot_type_confusion
        result_confusion_matrix :=
          (results.foldl metricsStep ⟨0, 0, 0, 0, [], [], []⟩).result_confusion }

/-- Spec-side predicate: the prediction carries no truthy error value,
i.e. the sample is counted into `valid_predictions`. -/
def validPred (r : SampleResult) : Bool := !(pyTruthy r.prediction.error)

/-- Spec-side predicate: the sample contributes to the
`shot_type_accuracy` numerator. -/
def shotTypeContrib (r : SampleResult) : Bool :=
  validPred r &&
    (pyTruthy r.ground_truth.shot_type &&
      (pyTruthy (_normalize_shot_type r.prediction.range) &&
        decide (r.ground_truth.shot_type = _normalize_shot_type r.prediction.range)))

/-- Spec-side predicate: the sample contributes to the
`result_accuracy` numerator. -/
def resultContrib (r : SampleResult) : Bool :=
  validPred r &&
    (pyTruthy r.ground_truth.result &&
      (pyTruthy (_normalize_result r.prediction.make_miss) &&
        decide (r.ground_truth.result = _normalize_result r.prediction.make_miss)))

/-- Spec-side predicate: the sample contributes to the
`both_correct_accuracy` numerator (plain equality of both fields). -/
def bothContrib (r : SampleResult) : Bool :=
  validPred r &&
    (decide (r.ground_truth.shot_type = _normalize_shot_type r.prediction.range) &&
      decide (r.ground_truth.result = _normalize_result r.prediction.make_miss))

/-! ## `evaluate_model` (`evaluator.py` lines 33-112) -/

/-- One dataset entry as seen by the `evaluate_model` loop.
`video_exists` is the oracle for `video_path.exists()`; `inference`
models the `_run_inference` call: `none` when it raises (the
`except Exception` branch), `some (prediction, cost, time)` when it
returns, with `time` the measured wall-clock inference time. -/
structure EvalEntry where
  clip_id : String
  ground_truth : GroundTruthLabels
  video_exists : Bool
  inference : Option (Prediction × Rat × Rat)

/-- One loop iteration of `evaluate_model` (`evaluator.py` lines
65-97), threading the `results` list and `total_cost`: a missing video
is skipped, an inference exception is caught and skipped, a success
appends a result row and accumulates the cost. -/
def evalStep (acc : List SampleResult × Rat) (e : EvalEntry) :
    List SampleResult × Rat :=
  if e.video_exists then
    match e.inference with
    | some (pred, cost, t) =>
      (acc.1 ++ [⟨e.clip_id, e.ground_truth, pred, t, cost⟩], acc.2 + cost)
    | none => acc
  else acc

/-! ## JSON values and `json.loads` (`_parse_model_output`,
`evaluator.py` lines 161-194)

JSON values parsed by `json.loads`.  Numbers keep their source literal
(Python parses them to numbers; the claims only compare parsed
structure, so the literal is the faithful shallow image). -/

inductive Json where
  | null
  | bool (b : Bool)
  | num (lit : String)
  | str (s : String)
  | arr (elems : List Json)
  | obj (fields : List (String × Json))

/-- JSON whitespace accepted by `json.loads` between tokens. -/
def jsonWs (c : Char) : Bool :=
  c = ' ' ∨ c = '\t' ∨ c = '\n' ∨ c = '\r'

/-- Drop leading JSON whitespace. -/
def skipWs : List Char → List Char
  | [] => []
  | c :: rest => if jsonWs c then skipWs rest else c :: rest

/-- Hex digit value for `\uXXXX` escapes. -/
def hexVal (c : Char) : Option Nat :=
  if '0' ≤ c ∧ c ≤ '9' then some (c.toNat - 48)
  else if 'a' ≤ c ∧ c ≤ 'f' then some (c.toNat - 87)
  else if 'A' ≤ c ∧ c ≤ 'F' then some (c.toNat - 55)
  else none

/-- Body of a JSON string after the opening quote: strict mode, so
unescaped control characters are rejected; the standard escapes and
`\uXXXX` are decoded. -/
def parseStringBody : List Char → Option (List Char × List Char)
  | [] => none
  | '"' :: rest => some ([], rest)
  | '\\' :: '"' :: rest => (parseStringBody rest).map fun p => ('"' :: p.1, p.2)
  | '\\' :: '\\' :: rest => (parseStringBody rest).map fun p => ('\\' :: p.1, p.2)
  | '\\' :: '/' :: rest => (parseStringBody rest).map fun p => ('/' :: p.1, p.2)
  | '\\' :: 'b' :: rest => (parseStringBody rest).map fun p => ('\x08' :: p.1, p.2)
  | '\\' :: 'f' :: rest => (parseStringBody rest).map fun p => ('\x0c' :: p.1, p.2)
  | '\\' :: 'n' :: rest => (parseStringBody rest).map fun p => ('\n' :: p.1, p.2)
  | '\\' :: 'r' :: rest => (parseStringBody rest).map fun p => ('\r' :: p.1, p.2)
  | '\\' :: 't' :: rest => (parseStringBody rest).map fun p => ('\t' :: p.1, p.2)
  | '\\' :: 'u' :: a :: b :: c :: d :: rest =>
    match hexVal a, hexVal b, hexVal c, hexVal d with
    | some x, some y, some z, some w =>
      (parseStringBody rest).map fun p =>
        (Char.ofNat (x * 4096 + y * 256 + z * 16 + w) :: p.1, p.2)
    | _, _, _, _ => none
  | '\\' :: _ => none
  | c :: rest =>
    if c.toNat < 32 then none
    else (parseStringBody rest).map fun p => (c :: p.1, p.2)

/-- Longest digit prefix. -/
def spanDigits : List Char → List Char × List Char
  | [] => ([], [])
  | c :: rest =>
    if c.isDigit then
      ((spanDigits rest).1.cons c, (spanDigits rest).2)
    else ([], c :: rest)

/-- Integer part of a JSON number: `0` or a nonzero digit followed by
digits. -/
def parseIntPart : List Char → Option (List Char × List Char)
  | [] => none
  | '0' :: rest => some (['0'], rest)
  | c :: rest =>
    if c.isDigit then some ((spanDigits rest).1.cons c, (spanDigits rest).2)
    else none

/-- Optional fraction part `.digits`; consumes nothing if absent or
malformed (matching the maximal-munch regex of the Python decoder). -/
def parseFrac : List Char → List Char × List Char
  | '.' :: c :: rest =>
    if c.isDigit then ('.' :: c :: (spanDigits rest).1, (spanDigits rest).2)
    else ([], '.' :: c :: rest)
  | s => ([], s)

/-- Optional exponent part `[eE][+-]?digits`; consumes nothing if
absent or malformed. -/
def parseExp : List Char → List Char × List Char
  | e :: '+' :: c :: rest =>
    if (e = 'e' ∨ e = 'E') ∧ c.isDigit then
      (e :: '+' :: c :: (spanDigits rest).1, (spanDigits rest).2)
    else ([], e :: '+' :: c :: rest)
  | e :: '-' :: c :: rest =>
    if (e = 'e' ∨ e = 'E') ∧ c.isDigit then
      (e :: '-' :: c :: (spanDigits rest).1, (spanDigits rest).2)
    else ([], e :: '-' :: c :: rest)
  | e :: c :: rest =>
    if (e = 'e' ∨ e = 'E') ∧ c.isDigit then
      (e :: c :: (spanDigits rest).1, (spanDigits rest).2)
    else ([], e :: c :: rest)
  | s => ([], s)

/-- A JSON number literal (grammar of the Python decoder's NUMBER_RE),
returned as its source characters. -/
def parseNumber (s : List Char) : Option (List Char × List Char) :=
  match s with
  | '-' :: rest =>
    (parseIntPart rest).map fun p =>
      ('-' :: p.1 ++ (parseFrac p.2).1 ++ (parseExp (parseFrac p.2).2).1,
        (parseExp (parseFrac p.2).2).2)
  | _ =>
    (parseIntPart s).map fun p =>
      (p.1 ++ (parseFrac p.2).1 ++ (parseExp (parseFrac p.2).2).1,
        (parseExp (parseFrac p.2).2).2)

/-- Parser mode: a plain value, the element loop of an array, or the
member loop of an object (with the fields accumulated so far — duplicate
keys overwrite, as in a Python dict). -/
inductive PMode where
  | value
  | arrElems (acc : List Json)
  | objFields (acc : List (String × Json))

/-- Recursive-descent core of `json.loads`, fuelled to stay
structurally recursive.  In `value` mode the input must start (without
leading whitespace) with a JSON value; Python's decoder also accepts
`NaN`, `Infinity` and `-Infinity`. -/
def parseJ : Nat → PMode → List Char → Option (Json × List Char)
  | 0, _, _ => none
  | fuel + 1, PMode.value, s =>
    match s with
    | '\x7b' :: rest => parseJ fuel (PMode.objFields []) (skipWs rest)
    | '[' :: rest => parseJ fuel (PMode.arrElems []) (skipWs rest)
    | '"' :: rest => (parseStringBody rest).map fun p => (Json.str ⟨p.1⟩, p.2)
    | 't' :: 'r' :: 'u' :: 'e' :: rest => some (Json.bool true, rest)
    | 'f' :: 'a' :: 'l' :: 's' :: 'e' :: rest => some (Json.bool false, rest)
    | 'n' :: 'u' :: 'l' :: 'l' :: rest => some (Json.null, rest)
    | 'N' :: 'a' :: 'N' :: rest => some (Json.num "NaN", rest)
    | 'I' :: 'n' :: 'f' :: 'i' :: 'n' :: 'i' :: 't' :: 'y' :: rest =>
      some (Json.num "Infinity", rest)
    | '-' :: 'I' :: 'n' :: 'f' :: 'i' :: 'n' :: 'i' :: 't' :: 'y' :: rest =>
      some (Json.num "-Infinity", rest)
    | s => (parseNumber s).map fun p => (Json.num ⟨p.1⟩, p.2)
  | fuel + 1, PMode.arrElems acc, s =>
    match s with
    | ']' :: rest =>
      if acc.isEmpty then some (Json.arr [], rest) else none
    | s =>
      match parseJ fuel PMode.value s with
      | none => none
      | some (v, r) =>
        match skipWs r with
        | ',' :: r2 => parseJ fuel (PMode.arrElems (acc ++ [v])) (skipWs r2)
        | ']' :: r2 => some (Json.arr (acc ++ [v]), r2)
        | _ => none
  | fuel + 1, PMode.objFields acc, s =>
    match s with
    | '\x7d' :: rest =>
      if acc.isEmpty then some (Json.obj [], rest) else none
    | '"' :: rest =>
      match parseStringBody rest with
      | none => none
      | some (k, r) =>
        match skipWs r with
        | ':' :: r2 =>
          match parseJ fuel PMode.value (skipWs r2) with
          | none => none
          | some (v, r3) =>
            match skipWs r3 with
            | ',' :: r4 => parseJ fuel (PMode.objFields (pyDictInsert acc ⟨k⟩ v)) (skipWs r4)
            | '\x7d' :: r4 => some (Json.obj (pyDictInsert acc ⟨k⟩ v), r4)
            | _ => none
        | _ => none
    | _ => none

/-- `json.loads`: parse one value surrounded by optional whitespace;
trailing data is an error. -/
def jsonLoads (s : String) : Option Json :=
  match parseJ (s.length + 1) PMode.value (skipWs s.data) with
  | some (v, rest) => if skipWs rest = [] then some v else none
  | none => none

/-! ## Markdown cleanup and fallback of `_parse_model_output` -/

/-- Characters removed by Python `str.strip()` (ASCII whitespace). -/
def pyStripChar (c : Char) : Bool :=
  c = ' ' ∨ c = '\t' ∨ c = '\n' ∨ c = '\r' ∨ c = '\x0b' ∨ c = '\x0c'

/-- Drop leading strip-characters. -/
def dropStrip : List Char → List Char
  | [] => []
  | c :: rest => if pyStripChar c then dropStrip rest else c :: rest

/-- Python `str.strip()`. -/
def pyStrip (s : String) : String :=
  ⟨((dropStrip s.data).reverse |> dropStrip).reverse⟩

/-- Python `str.split(sep)` for a single-character separator. -/
def pySplitChar (sep : Char) : List Char → List (List Char)
  | [] => [[]]
  | c :: rest =>
    if c = sep then [] :: pySplitChar sep rest
    else
      match pySplitChar sep rest with
      | h :: t => (c :: h) :: t
      | [] => [[c]]

/-- Python `"\n".join(lines)`. -/
def joinNewline : List (List Char) → List Char
  | [] => []
  | [l] => l
  | l :: rest => l ++ '\n' :: joinNewline rest

/-- Python `str.startswith`. -/
def pyStartsWith (pre s : String) : Bool := pre.data.isPrefixOf s.data

/-- The markdown-fence cleanup of `_parse_model_output`
(`evaluator.py` lines 164-170): strip, drop the first and last line of
a fenced block when there are more than two lines, then strip a
leading `json` language tag. -/
def cleanMarkdown (raw_text : String) : String :=
  let text := pyStrip raw_text
  if pyStartsWith "```" text then
    let lines := pySplitChar '\n' text.data
    let text2 :=
      if 2 < lines.length then (⟨joinNewline (lines.drop 1).dropLast⟩ : String)
      else text
    if pyStartsWith "json" text2 then pyStrip ⟨text2.data.drop 4⟩ else text2
  else text

/-- Python `str.find` for one character (`-1` becomes `none`). -/
def pyFindChar (c : Char) : List Char → Option Nat
  | [] => none
  | x :: rest => if x = c then some 0 else (pyFindChar c rest).map (· + 1)

/-- Python `str.rfind` for one character. -/
def pyRfindChar (c : Char) (s : List Char) : Option Nat :=
  (pyFindChar c s.reverse).map (fun i => s.length - 1 - i)

/-- The brace-substring fallback of `_parse_model_output`
(`evaluator.py` lines 176-184): take the slice from the first opening
brace to the last closing brace of the original text and parse it;
`none` when the indices are missing or inverted, or the slice fails to
parse. -/
def fallbackParse (raw_text : String) : Option Json :=
  match pyFindChar '\x7b' raw_text.data, pyRfindChar '\x7d' raw_text.data with
  | some i, some j =>
    if i < j + 1 then jsonLoads ⟨(raw_text.data.drop i).take (j + 1 - i)⟩
    else none
  | _, _ => none

/-- The sentinel error dict of `_parse_model_output`
(`evaluator.py` lines 187-194). -/
def parseSentinel (raw_text : String) : Json :=
  Json.obj [("make_miss", Json.null), ("range", Json.null),
    ("confidence", Json.num "0.0"), ("tips", Json.arr []),
    ("error", Json.str "Failed to parse JSON"),
    ("raw_output", Json.str raw_text)]

/-- `_parse_model_output` (`evaluator.py` lines 161-194): strict parse
after fence cleanup, then the brace-substring fallback, then the
sentinel. -/
def _parse_model_output (raw_text : String) : Json :=
  match jsonLoads (cleanMarkdown raw_text) with
  | some v => v
  | none =>
    match fallbackParse raw_text with
    | some v => v
    | none => parseSentinel raw_text

/-- Key lookup in a parsed JSON object. -/
def getField (j : Json) (key : String) : Option Json :=
  match j with
  | Json.obj fields => fields.lookup key
  | _ => none

/-! ## Confusion matrix (`metrics.py` lines 236-248) -/

/-- Index of the first occurrence of `sep` as a contiguous sublist. -/
def findSub (sep : List Char) : List Char → Option Nat
  | [] => if sep.isEmpty then some 0 else none
  | c :: rest =>
    if sep.isPrefixOf (c :: rest) then some 0
    else (findSub sep rest).map (· + 1)

/-- Fuelled worker for Python `str.split(sep)`. -/
def splitSub (sep : List Char) : Nat → List Char → List (List Char)
  | 0, s => [s]
  | fuel + 1, s =>
    match findSub sep s with
    | none => [s]
    | some i => s.take i :: splitSub sep fuel (s.drop (i + sep.length))

/-- Python `str.split(sep)` for a non-empty separator. -/
def pySplit (sep s : String) : List String :=
  (splitSub sep.data (s.data.length + 1) s.data).map fun cs => (⟨cs⟩ : String)

/-- Python `sep in s` (substring containment). -/
def strContains (sep s : String) : Bool := (findSub sep.data s.data).isSome

/-- `matrix[i][j] = v` on a list-of-rows matrix. -/
def set2 (m : List (List Nat)) (i j v : Nat) : List (List Nat) :=
  m.set i ((m.getD i []).set j v)

/-- One iteration of the `_build_confusion_matrix` loop
(`metrics.py` lines 240-246).  A key without the separator is skipped;
a key with the separator is split, raising `ValueError` (modelled as
`none`) unless the split has exactly two parts (Python's two-variable
unpacking); unknown labels are silently dropped. -/
def confStep (labels : List String) (acc : Option (List (List Nat)))
    (entry : String × Nat) : Option (List (List Nat)) :=
  match acc with
  | none => none
  | some matrix =>
    if strContains " -> " entry.1 then
      match pySplit " -> " entry.1 with
      | [t, p] =>
        if t ∈ labels ∧ p ∈ labels then
          some (set2 matrix (labels.indexOf t) (labels.indexOf p) entry.2)
        else some matrix
      | _ => none
    else some matrix

/-- `_build_confusion_matrix` (`metrics.py` lines 236-248): start from
an all-zero square matrix over `labels` and place each recognised
count; `none` models the `ValueError` raised while unpacking a
multi-separator key. -/
def _build_confusion_matrix (confusion_dict : List (String × Nat))
    (labels : List String) : Option (List (List Nat) × List String) :=
  (confusion_dict.foldl (confStep labels)
    (some (List.replicate labels.length (List.replicate labels.length 0)))).map
    fun m => (m, labels)

/-- `matrix[i][j]` read off a list-of-rows matrix (`0` out of range). -/
def get2 (m : List (List Nat)) (i j : Nat) : Nat := (m.getD i []).getD j 0

/-- The matrix described by the claim: entry `(i, j)` is the count
recorded under the key `labels[i] ++ " -> " ++ labels[j]`, `0` when
absent. -/
def specConfusionMatrix (confusion_dict : List (String × Nat))
    (labels : List String) : List (List Nat) :=
  (List.range labels.length).map fun i =>
    (List.range labels.length).map fun j =>
      (confusion_dict.lookup (labels.getD i "" ++ " -> " ++ labels.getD j "")).getD 0

/-- The dict returned by `evaluate_model`. -/
structure RunSummary where
  total_samples : Nat
  total_cost_usd : Rat
  average_inference_time_s : Rat
  metrics : Option RunMetrics
  results : List SampleResult

/-- `evaluate_model` (`evaluator.py` lines 33-112).  A truthy
`max_samples` truncates the dataset to a prefix.  The result is `none`
when the function raises: building the return dict computes
`sum(r['inference_time_s'] for r in results) / len(results)`, a
`ZeroDivisionError` whenever every sample was skipped. -/
def evaluate_model (max_samples : Option Nat)
    (ground_truth_data : List EvalEntry) : Option RunSummary :=
  let data := match max_samples with
    | some m => if m = 0 then ground_truth_data else ground_truth_data.take m
    | none => ground_truth_data
  if (data.foldl evalStep ([], 0)).1.length = 0 then none
  else
    some
      { total_samples := (data.foldl evalStep ([], 0)).1.length
        total_cost_usd := (data.foldl evalStep ([], 0)).2
        average_inference_time_s :=
          ((data.foldl evalStep ([], 0)).1.map (·.inference_time_s)).sum /
            (data.foldl evalStep ([], 0)).1.length
        metrics := _calculate_metrics (data.foldl evalStep ([], 0)).1
        results := (data.foldl evalStep ([], 0)).1 }

end BasketballEval

namespace BasketballEval

/-! ## Lemmas about the string primitives -/

theorem toNat_ofNat_valid (n : Nat) (h : n < 55296) : (Char.ofNat n).toNat = n := by
  rw [Char.ofNat, dif_pos (Or.inl h)]
  rfl

theorem pyUpperChar_pyLowerChar (c : Char) :
    pyUpperChar (pyLowerChar c) = pyUpperChar c := by
  by_cases h : 65 ≤ c.toNat ∧ c.toNat ≤ 90
  · have hl : pyLowerChar c = Char.ofNat (c.toNat + 32) := if_pos h
    have hv : (Char.ofNat (c.toNat + 32)).toNat = c.toNat + 32 :=
      toNat_ofNat_valid _ (by omega)
    rw [hl]
    unfold pyUpperChar
    rw [if_pos (show 97 ≤ (Char.ofNat (c.toNat + 32)).toNat ∧
        (Char.ofNat (c.toNat + 32)).toNat ≤ 122 by rw [hv]; omega)]
    rw [if_neg (show ¬(97 ≤ c.toNat ∧ c.toNat ≤ 122) by omega)]
    rw [hv]
    have h32 : c.toNat + 32 - 32 = c.toNat := by omega
    rw [h32, Char.ofNat_toNat]
  · have hl : pyLowerChar c = c := if_neg h
    rw [hl]

theorem pyLowerChar_pyLowerChar (c : Char) :
    pyLowerChar (pyLowerChar c) = pyLowerChar c := by
  by_cases h : 65 ≤ c.toNat ∧ c.toNat ≤ 90
  · have hl : pyLowerChar c = Char.ofNat (c.toNat + 32) := if_pos h
    have hv : (Char.ofNat (c.toNat + 32)).toNat = c.toNat + 32 :=
      toNat_ofNat_valid _ (by omega)
    rw [hl]
    unfold pyLowerChar
    rw [if_neg (show ¬(65 ≤ (Char.ofNat (c.toNat + 32)).toNat ∧
        (Char.ofNat (c.toNat + 32)).toNat ≤ 90) by rw [hv]; omega)]
  · have hl : pyLowerChar c = c := if_neg h
    rw [hl, hl]

theorem pyUpper_pyLower (s : String) : pyUpper (pyLower s) = pyUpper s := by
  unfold pyUpper pyLower
  simp only [List.map_map]
  exact congrArg String.mk (List.map_congr_left fun c _ => pyUpperChar_pyLowerChar c)

theorem pyLower_pyLower (s : String) : pyLower (pyLower s) = pyLower s := by
  unfold pyLower
  simp only [List.map_map]
  exact congrArg String.mk (List.map_congr_left fun c _ => pyLowerChar_pyLowerChar c)

theorem pyLower_ne_empty {s : String} (h : s ≠ "") : pyLower s ≠ "" := by
  intro hc
  apply h
  unfold pyLower at hc
  have : s.data.map pyLowerChar = [] := congrArg String.data hc
  have hnil : s.data = [] := by
    cases hd : s.data with
    | nil => rfl
    | cons a l => rw [hd] at this; simp at this
  cases s with
  | mk d => simp_all

theorem normalize_shot_type_some (s : String) :
    _normalize_shot_type (some s) =
      if s = "" then none
      else some ((shotTypeMapping.lookup (pyUpper s)).getD (pyLower s)) := rfl

theorem normalize_result_some (s : String) :
    _normalize_result (some s) =
      if s = "" then none
      else
        if pyUpper s = "MAKE" then some "make"
        else if pyUpper s = "MISS" then some "miss"
        else none := rfl

theorem lookup_shotTypeMapping_cases {k v : String}
    (h : shotTypeMapping.lookup k = some v) :
    v = "lay_up" ∨ v = "in_paint" ∨ v = "mid_range" ∨
    v = "three_pointer" ∨ v = "free_throw" := by
  simp only [shotTypeMapping, List.lookup] at h
  repeat' split at h
  all_goals simp_all

theorem normalize_shot_type_canonical (v : String)
    (hv : v = "lay_up" ∨ v = "in_paint" ∨ v = "mid_range" ∨
      v = "three_pointer" ∨ v = "free_throw") :
    _normalize_shot_type (some v) = some v := by
  rcases hv with h | h | h | h | h <;> subst h <;> decide

/-- Claim C9.  Both label normalizers are idempotent: normalization is
a fixed point on its own output (canonical label, lower-cased
passthrough, or null), for every string-or-null input. -/
theorem claim_C9_normalizers_idempotent (x : Option String) :
    _normalize_shot_type (_normalize_shot_type x) = _normalize_shot_type x ∧
    _normalize_result (_normalize_result x) = _normalize_result x := by
  constructor
  · match x with
    | none => rfl
    | some s =>
      by_cases hs : s = ""
      · subst hs; rfl
      · rw [normalize_shot_type_some, if_neg hs]
        cases hl : shotTypeMapping.lookup (pyUpper s) with
        | some v =>
          simp only [hl, Option.getD_some]
          exact normalize_shot_type_canonical v (lookup_shotTypeMapping_cases hl)
        | none =>
          simp only [hl, Option.getD_none]
          rw [normalize_shot_type_some, if_neg (pyLower_ne_empty hs),
            pyUpper_pyLower, hl]
          simp only [Option.getD_none]
          rw [pyLower_pyLower]
  · match x with
    | none => rfl
    | some s =>
      by_cases hs : s = ""
      · subst hs; rfl
      · rw [normalize_result_some, if_neg hs]
        by_cases hmk : pyUpper s = "MAKE"
        · rw [if_pos hmk]; decide
        · rw [if_neg hmk]
          by_cases hms : pyUpper s = "MISS"
          · rw [if_pos hms]; decide
          · rw [if_neg hms]; rfl

/-! ## Override resolution on the fallback path (claims C1, C2) -/

theorem foldl_overridesDictStep (ov : List OverrideRecord)
    (d : Nat × String → Option OverrideRecord) (k : Nat × String) :
    (ov.foldl overridesDictStep d) k =
      (ov.filter fun o => k = (o.analysis_id, o.field_name)).foldl maxStep (d k) := by
  induction ov generalizing d with
  | nil => rfl
  | cons o t ih =>
    simp only [List.foldl_cons]
    rw [ih]
    by_cases h : k = (o.analysis_id, o.field_name)
    · rw [List.filter_cons_of_pos (by simpa using h), List.foldl_cons]
      congr 1
      unfold overridesDictStep
      rw [if_pos h]
      rfl
    · rw [List.filter_cons_of_neg (by simpa using h)]
      congr 1
      unfold overridesDictStep
      rw [if_neg h]

theorem maxStep_cases (acc : Option OverrideRecord) (o : OverrideRecord) :
    ∃ z, maxStep acc o = some z ∧ (z = o ∨ acc = some z) ∧
      o.created_at ≤ z.created_at ∧
      (∀ x, acc = some x → x.created_at ≤ z.created_at) := by
  cases acc with
  | none => exact ⟨o, rfl, Or.inl rfl, Nat.le_refl _, by simp⟩
  | some cur =>
    by_cases h : cur.created_at < o.created_at
    · refine ⟨o, ?_, Or.inl rfl, Nat.le_refl _, ?_⟩
      · simp [maxStep, h]
      · intro x hx
        cases hx
        omega
    · refine ⟨cur, ?_, Or.inr rfl, by omega, ?_⟩
      · simp [maxStep, h]
      · intro x hx
        cases hx
        exact Nat.le_refl _

theorem foldl_maxStep_spec (l : List OverrideRecord) (acc : Option OverrideRecord) :
    (l.foldl maxStep acc = none → l = [] ∧ acc = none) ∧
    (∀ y, l.foldl maxStep acc = some y →
      (y ∈ l ∨ acc = some y) ∧
      (∀ o ∈ l, o.created_at ≤ y.created_at) ∧
      (∀ x, acc = some x → x.created_at ≤ y.created_at)) := by
  induction l generalizing acc with
  | nil =>
    refine ⟨fun h => ⟨rfl, h⟩, fun y h => ⟨Or.inr h, by simp, fun x hx => ?_⟩⟩
    rw [hx] at h
    cases h
    exact Nat.le_refl _
  | cons o t ih =>
    obtain ⟨z, hz, hzo, hole, hineq⟩ := maxStep_cases acc o
    constructor
    · intro h
      rw [List.foldl_cons, hz] at h
      exact absurd ((ih (some z)).1 h).2 (by simp)
    · intro y h
      rw [List.foldl_cons, hz] at h
      obtain ⟨hmem, hmax, hacc⟩ := (ih (some z)).2 y h
      have hzy : z.created_at ≤ y.created_at := hacc z rfl
      refine ⟨?_, ?_, ?_⟩
      · rcases hmem with hy | hy
        · exact Or.inl (List.mem_cons_of_mem _ hy)
        · cases hy
          rcases hzo with rfl | hz'
          · exact Or.inl (List.mem_cons_self _ _)
          · exact Or.inr hz'
      · intro o' ho'
        rcases List.mem_cons.1 ho' with rfl | ho'
        · exact Nat.le_trans hole hzy
        · exact hmax o' ho'
      · intro x hx
        exact Nat.le_trans (hineq x hx) hzy

theorem overridesDict_eq_none (ov : List OverrideRecord) (k : Nat × String)
    (h : ∀ o ∈ ov, ¬ k = (o.analysis_id, o.field_name)) :
    overridesDict ov k = none := by
  unfold overridesDict
  rw [foldl_overridesDictStep]
  have hnil : (ov.filter fun o => k = (o.analysis_id, o.field_name)) = [] :=
    List.filter_eq_nil_iff.2 (by simpa using h)
  rw [hnil]
  rfl

theorem overridesDict_spec_some (ov : List OverrideRecord) (k : Nat × String)
    (y : OverrideRecord) (h : overridesDict ov k = some y) :
    y ∈ ov ∧ k = (y.analysis_id, y.field_name) ∧
      ∀ o ∈ ov, k = (o.analysis_id, o.field_name) →
        o.created_at ≤ y.created_at := by
  unfold overridesDict at h
  rw [foldl_overridesDictStep] at h
  obtain ⟨hmem, hmax, -⟩ := (foldl_maxStep_spec _ none).2 y h
  have hy : y ∈ ov.filter fun o => k = (o.analysis_id, o.field_name) := by
    rcases hmem with hy | hy
    · exact hy
    · cases hy
  obtain ⟨hyov, hyk⟩ := List.mem_filter.1 hy
  refine ⟨hyov, by simpa using hyk, fun o ho hok => ?_⟩
  exact hmax o (List.mem_filter.2 ⟨ho, by simpa using hok⟩)

theorem resolveField_spec (ov : List OverrideRecord) (aid : Nat) (field : String)
    (orig : Option String) :
    ((∀ o ∈ ov, ¬(o.analysis_id = aid ∧ o.field_name = field)) →
      resolveField (overridesDict ov) aid field orig = orig) ∧
    (∀ o ∈ ov, o.analysis_id = aid → o.field_name = field →
      (∀ o' ∈ ov, o'.analysis_id = aid → o'.field_name = field → o' ≠ o →
        o'.created_at < o.created_at) →
      resolveField (overridesDict ov) aid field orig = some o.override_value) := by
  constructor
  · intro h
    unfold resolveField
    rw [overridesDict_eq_none ov (aid, field) ?_]
    intro o ho hk
    have hc : o.analysis_id = aid ∧ o.field_name = field := by
      simpa using hk.symm
    exact h o ho hc
  · intro o ho hoa hof hstrict
    unfold resolveField
    cases hd : overridesDict ov (aid, field) with
    | none =>
      exfalso
      unfold overridesDict at hd
      rw [foldl_overridesDictStep] at hd
      have := ((foldl_maxStep_spec _ none).1 hd).1
      have hmem : o ∈ ov.filter fun o' => (aid, field) = (o'.analysis_id, o'.field_name) :=
        List.mem_filter.2 ⟨ho, by simp [hoa, hof]⟩
      rw [this] at hmem
      cases hmem
    | some y =>
      obtain ⟨hyov, hyk, hymax⟩ := overridesDict_spec_some ov (aid, field) y hd
      have hc : y.analysis_id = aid ∧ y.field_name = field := by
        simpa using hyk.symm
      have hya : y.analysis_id = aid := hc.1
      have hyf : y.field_name = field := hc.2
      by_cases hyo : y = o
      · subst hyo; rfl
      · exfalso
        have h1 : y.created_at < o.created_at := hstrict y hyov hya hyf hyo
        have h2 : o.created_at ≤ y.created_at := hymax o ho (by simp [hoa, hof])
        omega

theorem mem_process_fallback (clips : List ClipRecord)
    (analyses : List AnalysisRecord) (overrides : List OverrideRecord)
    (row : CombinedRow)
    (hrow : row ∈ _process_fallback_data clips analyses overrides) :
    ∃ (cid : Nat) (clip : ClipRecord) (analysis : AnalysisRecord),
      row = combineRow cid clip analysis (overridesDict overrides) := by
  unfold _process_fallback_data at hrow
  obtain ⟨p, -, hp⟩ := List.mem_filterMap.1 hrow
  cases hl : (pyDictOf (analyses.map fun a => (a.clip_id, a))).lookup p.1 with
  | none => rw [hl] at hp; cases hp
  | some analysis =>
    rw [hl] at hp
    cases hp
    exact ⟨p.1, p.2, analysis, rfl⟩

/-- Claim C1.  On the fallback reconstruction path, for every produced
record and each of the two fields, the ground-truth value is the
`override_value` of the unique `created_at`-maximal override matching
`(analysis_id, field_name)` when one exists, and the analysis record's
original field value when no override matches. -/
theorem claim_C1_override_resolution (clips : List ClipRecord)
    (analyses : List AnalysisRecord) (overrides : List OverrideRecord)
    (row : CombinedRow)
    (hrow : row ∈ _process_fallback_data clips analyses overrides) :
    ((∀ o ∈ overrides, ¬(o.analysis_id = row.analysis_id ∧ o.field_name = "shot_type")) →
      row.ground_truth_shot_type = row.original_shot_type) ∧
    (∀ o ∈ overrides, o.analysis_id = row.analysis_id → o.field_name = "shot_type" →
      (∀ o' ∈ overrides, o'.analysis_id = row.analysis_id → o'.field_name = "shot_type" →
        o' ≠ o → o'.created_at < o.created_at) →
      row.ground_truth_shot_type = some o.override_value) ∧
    ((∀ o ∈ overrides, ¬(o.analysis_id = row.analysis_id ∧ o.field_name = "result")) →
      row.ground_truth_result = row.original_result) ∧
    (∀ o ∈ overrides, o.analysis_id = row.analysis_id → o.field_name = "result" →
      (∀ o' ∈ overrides, o'.analysis_id = row.analysis_id → o'.field_name = "result" →
        o' ≠ o → o'.created_at < o.created_at) →
      row.ground_truth_result = some o.override_value) := by
  obtain ⟨cid, clip, analysis, rfl⟩ :=
    mem_process_fallback clips analyses overrides row hrow
  have hst := resolveField_spec overrides analysis.id "shot_type" analysis.shot_type
  have hrs := resolveField_spec overrides analysis.id "result" analysis.result
  exact ⟨hst.1, fun o ho h1 h2 h3 => hst.2 o ho h1 h2 h3,
    hrs.1, fun o ho h1 h2 h3 => hrs.2 o ho h1 h2 h3⟩

/-- Witness for C1 at a concrete input: one clip, one analysis, two
shot-type overrides of which the later one (created_at 20) wins, and no
result override so the original result survives. -/
theorem claim_C1_override_resolution_witness :
    ((⟨1, "sk", 2, 50, 7, some "lay_up", some "miss", none, none, 60,
        some "mid_range", some "miss"⟩ : CombinedRow) ∈
      _process_fallback_data [⟨1, "sk", 2, 50⟩]
        [⟨7, 1, some "lay_up", some "miss", none, none, 60, "success"⟩]
        [⟨7, "shot_type", "three_pointer", 10⟩, ⟨7, "shot_type", "mid_range", 20⟩]) ∧
    (⟨1, "sk", 2, 50, 7, some "lay_up", some "miss", none, none, 60,
        some "mid_range", some "miss"⟩ : CombinedRow).ground_truth_shot_type =
      some (⟨7, "shot_type", "mid_range", 20⟩ : OverrideRecord).override_value ∧
    (⟨1, "sk", 2, 50, 7, some "lay_up", some "miss", none, none, 60,
        some "mid_range", some "miss"⟩ : CombinedRow).ground_truth_result =
      (⟨1, "sk", 2, 50, 7, some "lay_up", some "miss", none, none, 60,
        some "mid_range", some "miss"⟩ : CombinedRow).original_result := by
  have hmem : (⟨1, "sk", 2, 50, 7, some "lay_up", some "miss", none, none, 60,
      some "mid_range", some "miss"⟩ : CombinedRow) ∈
      _process_fallback_data [⟨1, "sk", 2, 50⟩]
        [⟨7, 1, some "lay_up", some "miss", none, none, 60, "success"⟩]
        [⟨7, "shot_type", "three_pointer", 10⟩, ⟨7, "shot_type", "mid_range", 20⟩] := by
    decide
  have h := claim_C1_override_resolution _ _ _ _ hmem
  refine ⟨hmem, ?_, ?_⟩
  · exact h.2.1 ⟨7, "shot_type", "mid_range", 20⟩ (by decide) (by decide) (by decide)
      (by decide)
  · exact h.2.2.1 (by decide)

/-! ## Fallback join equivalence (claim C2) -/

theorem foldl_pyDictInsert {K V : Type} [DecidableEq K] (pairs d : List (K × V))
    (h : ((d ++ pairs).map Prod.fst).Nodup) :
    pairs.foldl (fun d p => pyDictInsert d p.1 p.2) d = d ++ pairs := by
  induction pairs generalizing d with
  | nil => simp
  | cons p t ih =>
    have hk : p.1 ∉ d.map Prod.fst := by
      intro hmem
      rw [List.map_append, List.nodup_append] at h
      exact h.2.2 hmem (by simp)
    have hins : pyDictInsert d p.1 p.2 = d ++ [p] := by
      unfold pyDictInsert
      rw [if_neg hk]
    rw [List.foldl_cons, hins, ih (d ++ [p]) (by simpa using h)]
    simp

theorem pyDictOf_nodup {K V : Type} [DecidableEq K] (pairs : List (K × V))
    (h : (pairs.map Prod.fst).Nodup) : pyDictOf pairs = pairs := by
  unfold pyDictOf
  simpa using foldl_pyDictInsert pairs [] (by simpa using h)

theorem lookup_map_clip (l : List AnalysisRecord) (k : Nat) :
    (l.map fun a => (a.clip_id, a)).lookup k =
      (l.filter fun a => a.clip_id = k).head? := by
  induction l with
  | nil => rfl
  | cons a t ih =>
    by_cases h : a.clip_id = k
    · have hb : (k == a.clip_id) = true := by simp [h]
      rw [List.map_cons, List.filter_cons_of_pos (by simpa using h)]
      simp [List.lookup, hb]
    · have hb : (k == a.clip_id) = false :=
        beq_eq_false_iff_ne.mpr (fun hkk => h hkk.symm)
      rw [List.map_cons, List.filter_cons_of_neg (by simpa using h)]
      simpa [List.lookup, hb] using ih

theorem filter_clip_single (l : List AnalysisRecord)
    (hnd : (l.map (·.clip_id)).Nodup) (k : Nat) :
    l.filter (fun a => a.clip_id = k) = [] ∨
      ∃ a, l.filter (fun a => a.clip_id = k) = [a] := by
  induction l with
  | nil => exact Or.inl rfl
  | cons a t ih =>
    rw [List.map_cons, List.nodup_cons] at hnd
    by_cases h : a.clip_id = k
    · right
      refine ⟨a, ?_⟩
      rw [List.filter_cons_of_pos (by simpa using h)]
      have hnil : t.filter (fun a => a.clip_id = k) = [] := by
        apply List.filter_eq_nil_iff.2
        intro b hb
        simp only [decide_eq_true_eq]
        intro hbk
        apply hnd.1
        rw [show a.clip_id = b.clip_id from h.trans hbk.symm]
        exact List.mem_map_of_mem _ hb
      rw [hnil]
    · rw [List.filter_cons_of_neg (by simpa using h)]
      exact ih hnd.2

theorem maxStep_eq_argAux :
    maxStep = List.argAux (fun b c => c.created_at < b.created_at) := by
  funext acc o
  cases acc <;> rfl

theorem resolveField_eq_sql (ov : List OverrideRecord) (aid : Nat)
    (field : String) (orig : Option String) :
    resolveField (overridesDict ov) aid field orig =
      match latestOverrideSql ov aid field with
      | some v => some v
      | none => orig := by
  have hdict : overridesDict ov (aid, field) =
      (ov.filter fun o => o.analysis_id = aid ∧ o.field_name = field).argmax
        (fun o => o.created_at) := by
    unfold overridesDict
    rw [foldl_overridesDictStep]
    have hfc : (ov.filter fun o => (aid, field) = (o.analysis_id, o.field_name)) =
        ov.filter fun o => o.analysis_id = aid ∧ o.field_name = field :=
      List.filter_congr (fun o _ => by
        apply decide_eq_decide.mpr
        constructor
        · intro h
          exact ⟨(congrArg Prod.fst h).symm, (congrArg Prod.snd h).symm⟩
        · intro h
          rw [h.1, h.2])
    rw [hfc, List.argmax, maxStep_eq_argAux]
  unfold resolveField latestOverrideSql
  rw [hdict]
  cases (ov.filter fun o => o.analysis_id = aid ∧ o.field_name = field).argmax
      (fun o => o.created_at) with
  | none => rfl
  | some o => rfl

theorem sqlRow_eq_combineRow (c : ClipRecord) (a : AnalysisRecord)
    (ov : List OverrideRecord) :
    sqlRow c a ov = combineRow c.id c a (overridesDict ov) := by
  unfold sqlRow combineRow
  rw [resolveField_eq_sql, resolveField_eq_sql]

theorem flatMap_eq_filterMap_of_nodup (clips : List ClipRecord)
    (analyses' : List AnalysisRecord) (ov : List OverrideRecord)
    (han : (analyses'.map (·.clip_id)).Nodup) :
    (clips.flatMap fun c =>
      (analyses'.filter fun a => a.clip_id = c.id).map fun a => sqlRow c a ov) =
    (clips.map fun c => (c.id, c)).filterMap (fun p =>
      match (analyses'.map fun a => (a.clip_id, a)).lookup p.1 with
      | none => none
      | some analysis => some (combineRow p.1 p.2 analysis (overridesDict ov))) := by
  induction clips with
  | nil => rfl
  | cons c t ih =>
    rw [List.flatMap_cons, List.map_cons, List.filterMap_cons, ih]
    simp only [lookup_map_clip]
    rcases filter_clip_single analyses' han c.id with hnil | ⟨a, ha⟩
    · simp only [hnil]
      simp
    · simp only [ha]
      simp [sqlRow_eq_combineRow]

theorem filter_and_comm (analyses : List AnalysisRecord) (cid : Nat) :
    (analyses.filter fun a => a.clip_id = cid ∧ a.status = "success") =
    ((analyses.filter fun a => a.status = "success").filter
      fun a => a.clip_id = cid) := by
  induction analyses with
  | nil => rfl
  | cons a t ih =>
    by_cases h1 : a.clip_id = cid <;> by_cases h2 : a.status = "success" <;>
      simp [List.filter_cons, h1, h2, ih]

/-- Claim C2, amended.  Under the invariants the primary query relies
on — distinct clip ids and at most one successful analysis per clip —
the fallback reconstruction produces the same multiset of joined rows
(same clip_ids and same resolved ground-truth fields) as the single
joined query; without those invariants the two paths differ (see the
counterexample). -/
theorem claim_C2_fallback_join_equivalence (clips : List ClipRecord)
    (analyses : List AnalysisRecord) (overrides : List OverrideRecord)
    (hclips : (clips.map (·.id)).Nodup)
    (han : ((analyses.filter fun a => a.status = "success").map (·.clip_id)).Nodup) :
    (fetchEvaluationDatasetQuery clips analyses overrides).Perm
      (_process_fallback_data clips
        (analyses.filter fun a => a.status = "success") overrides) := by
  unfold fetchEvaluationDatasetQuery
  refine (List.mergeSort_perm _ _).trans ?_
  have heq : (clips.flatMap fun c =>
      (analyses.filter fun a => a.clip_id = c.id ∧ a.status = "success").map
        fun a => sqlRow c a overrides) =
      _process_fallback_data clips
        (analyses.filter fun a => a.status = "success") overrides := by
    unfold _process_fallback_data
    rw [pyDictOf_nodup (clips.map fun c => (c.id, c))
        (by simpa [List.map_map, Function.comp] using hclips),
      pyDictOf_nodup ((analyses.filter fun a => a.status = "success").map
          fun a => (a.clip_id, a))
        (by simpa [List.map_map, Function.comp] using han)]
    rw [← flatMap_eq_filterMap_of_nodup clips _ overrides han]
    simp only [filter_and_comm]
  rw [heq]

/-- Witness for the amended C2 at a concrete input: one clip with one
successful analysis and one override; the two paths agree. -/
theorem claim_C2_fallback_join_equivalence_witness :
    ((([⟨1, "sk", 2, 50⟩] : List ClipRecord).map (·.id)).Nodup) ∧
    (fetchEvaluationDatasetQuery [⟨1, "sk", 2, 50⟩]
        [⟨7, 1, some "lay_up", some "miss", none, none, 60, "success"⟩]
        [⟨7, "result", "make", 10⟩]).Perm
      (_process_fallback_data [⟨1, "sk", 2, 50⟩]
        (([⟨7, 1, some "lay_up", some "miss", none, none, 60, "success"⟩] :
            List AnalysisRecord).filter fun a => a.status = "success")
        [⟨7, "result", "make", 10⟩]) :=
  ⟨by decide,
    claim_C2_fallback_join_equivalence
      [⟨1, "sk", 2, 50⟩]
      [⟨7, 1, some "lay_up", some "miss", none, none, 60, "success"⟩]
      [⟨7, "result", "make", 10⟩] (by decide) (by decide)⟩

/-- Counterexample to C2 as stated: with two successful analyses for
the same clip, the joined query returns two rows while the fallback
reconstruction returns only one (its analysis dict keeps the last
analysis seen per clip_id), so the two paths do not produce the same
set of records for every input collection. -/
theorem claim_C2_counterexample :
    ¬ (fetchEvaluationDatasetQuery [⟨1, "sk", 2, 50⟩]
        [⟨7, 1, some "lay_up", some "miss", none, none, 60, "success"⟩,
         ⟨8, 1, some "free_throw", some "make", none, none, 61, "success"⟩] []).Perm
      (_process_fallback_data [⟨1, "sk", 2, 50⟩]
        (([⟨7, 1, some "lay_up", some "miss", none, none, 60, "success"⟩,
           ⟨8, 1, some "free_throw", some "make", none, none, 61, "success"⟩] :
            List AnalysisRecord).filter fun a => a.status = "success") []) := by
  intro h
  have hlen := h.length_eq
  unfold fetchEvaluationDatasetQuery at hlen
  rw [List.length_mergeSort] at hlen
  exact absurd hlen (by decide)

/-! ## Dataset statistics (claim C10) -/

theorem statsAcc_fields (l : List GroundTruthEntry) (acc : StatsAcc) :
    (l.foldl statsStep acc).has_user_corrections =
      acc.has_user_corrections + (l.filter fun e =>
        e.gt_shot_type ≠ e.orig_shot_type ∨ e.gt_result ≠ e.orig_result).length ∧
    (l.foldl statsStep acc).duration_sum =
      acc.duration_sum + (l.map (·.duration_s)).sum := by
  induction l generalizing acc with
  | nil => simp
  | cons e t ih =>
    rw [List.foldl_cons]
    obtain ⟨ihc, ihd⟩ := ih (statsStep acc e)
    constructor
    · rw [ihc]
      by_cases h : e.gt_shot_type ≠ e.orig_shot_type ∨ e.gt_result ≠ e.orig_result
      · rw [List.filter_cons_of_pos (by simpa using h)]
        simp only [statsStep, if_pos h, List.length_cons]
        omega
      · rw [List.filter_cons_of_neg (by simpa using h)]
        simp only [statsStep, if_neg h]
    · rw [ihd]
      simp only [statsStep, List.map_cons, List.sum_cons]
      ring

/-- Claim C10.  `get_dataset_stats` returns the stats dict — with
`correction_rate = has_user_corrections / total_clips` and
`average_duration = (sum of durations) / total_clips` — only for a
non-empty snapshot; loading an existing snapshot with zero entries
reaches the final divisions with divisor 0 and raises
(`ZeroDivisionError`, modelled as `none`), while the guarded error
return covers only the missing-file case. -/
theorem claim_C10_dataset_stats_empty_raises :
    get_dataset_stats none = some .errorMissing ∧
    get_dataset_stats (some []) = none ∧
    ∀ entries : List GroundTruthEntry, entries ≠ [] →
      ∃ s, get_dataset_stats (some entries) = some (.stats s) ∧
        s.total_clips = entries.length ∧
        s.has_user_corrections = (entries.filter fun e =>
          e.gt_shot_type ≠ e.orig_shot_type ∨ e.gt_result ≠ e.orig_result).length ∧
        s.correction_rate = (s.has_user_corrections : Rat) / entries.length ∧
        s.average_duration = (entries.map (·.duration_s)).sum / entries.length := by
  refine ⟨rfl, rfl, fun entries hne => ?_⟩
  have hlen : ¬ entries.length = 0 := by
    simpa [List.length_eq_zero] using hne
  obtain ⟨hc, hd⟩ := statsAcc_fields entries ⟨[], [], 0, 0, 0⟩
  unfold get_dataset_stats
  dsimp only
  rw [if_neg hlen]
  refine ⟨_, rfl, rfl, ?_, rfl, ?_⟩
  · simpa using hc
  · dsimp only
    rw [hd]
    simp

/-- Witness for C10 at a one-entry snapshot. -/
theorem claim_C10_dataset_stats_empty_raises_witness :
    (([⟨1, some "lay_up", some "make", some "lay_up", some "miss", 2, true⟩] :
        List GroundTruthEntry) ≠ []) ∧
    ∃ s, get_dataset_stats
        (some [⟨1, some "lay_up", some "make", some "lay_up", some "miss", 2, true⟩]) =
          some (.stats s) ∧
      s.total_clips =
        ([⟨1, some "lay_up", some "make", some "lay_up", some "miss", 2, true⟩] :
          List GroundTruthEntry).length ∧
      s.has_user_corrections =
        (([⟨1, some "lay_up", some "make", some "lay_up", some "miss", 2, true⟩] :
          List GroundTruthEntry).filter fun e =>
            e.gt_shot_type ≠ e.orig_shot_type ∨ e.gt_result ≠ e.orig_result).length ∧
      s.correction_rate = (s.has_user_corrections : Rat) /
        ([⟨1, some "lay_up", some "make", some "lay_up", some "miss", 2, true⟩] :
          List GroundTruthEntry).length ∧
      s.average_duration =
        (([⟨1, some "lay_up", some "make", some "lay_up", some "miss", 2, true⟩] :
          List GroundTruthEntry).map (·.duration_s)).sum /
        ([⟨1, some "lay_up", some "make", some "lay_up", some "miss", 2, true⟩] :
          List GroundTruthEntry).length :=
  ⟨by decide, claim_C10_dataset_stats_empty_raises.2.2
    [⟨1, some "lay_up", some "make", some "lay_up", some "miss", 2, true⟩]
    (by decide)⟩

/-! ## Metrics counting (claims C4, C5) -/

theorem metricsStep_valid (acc : MetricsAcc) (r : SampleResult) :
    (metricsStep acc r).valid_predictions =
      if validPred r then acc.valid_predictions + 1 else acc.valid_predictions := by
  unfold metricsStep validPred
  by_cases herr : pyTruthy r.prediction.error <;> simp [herr]

theorem metricsStep_shot (acc : MetricsAcc) (r : SampleResult) :
    (metricsStep acc r).shot_type_correct =
      if shotTypeContrib r then acc.shot_type_correct + 1
      else acc.shot_type_correct := by
  unfold metricsStep shotTypeContrib validPred
  by_cases herr : pyTruthy r.prediction.error
  · simp [herr]
  · by_cases h1 : pyTruthy r.ground_truth.shot_type <;>
      by_cases h2 : pyTruthy (_normalize_shot_type r.prediction.range) <;>
      by_cases h3 : r.ground_truth.shot_type = _normalize_shot_type r.prediction.range <;>
      simp [herr, h1, h2, h3]

theorem metricsStep_result (acc : MetricsAcc) (r : SampleResult) :
    (metricsStep acc r).result_correct =
      if resultContrib r then acc.result_correct + 1 else acc.result_correct := by
  unfold metricsStep resultContrib validPred
  by_cases herr : pyTruthy r.prediction.error
  · simp [herr]
  · by_cases h1 : pyTruthy r.ground_truth.result <;>
      by_cases h2 : pyTruthy (_normalize_result r.prediction.make_miss) <;>
      by_cases h3 : r.ground_truth.result = _normalize_result r.prediction.make_miss <;>
      simp [herr, h1, h2, h3]

theorem metricsStep_both (acc : MetricsAcc) (r : SampleResult) :
    (metricsStep acc r).both_correct =
      if bothContrib r then acc.both_correct + 1 else acc.both_correct := by
  unfold metricsStep bothContrib validPred
  by_cases herr : pyTruthy r.prediction.error
  · simp [herr]
  · by_cases h1 : r.ground_truth.shot_type = _normalize_shot_type r.prediction.range <;>
      by_cases h2 : r.ground_truth.result = _normalize_result r.prediction.make_miss <;>
      simp [herr, h1, h2]

theorem metricsAcc_counts (l : List SampleResult) (acc : MetricsAcc) :
    (l.foldl metricsStep acc).valid_predictions =
      acc.valid_predictions + (l.filter validPred).length ∧
    (l.foldl metricsStep acc).shot_type_correct =
      acc.shot_type_correct + (l.filter shotTypeContrib).length ∧
    (l.foldl metricsStep acc).result_correct =
      acc.result_correct + (l.filter resultContrib).length ∧
    (l.foldl metricsStep acc).both_correct =
      acc.both_correct + (l.filter bothContrib).length := by
  induction l generalizing acc with
  | nil => simp
  | cons r t ih =>
    rw [List.foldl_cons]
    obtain ⟨ih1, ih2, ih3, ih4⟩ := ih (metricsStep acc r)
    rw [ih1, ih2, ih3, ih4, metricsStep_valid, metricsStep_shot, metricsStep_result,
      metricsStep_both]
    refine ⟨?_, ?_, ?_, ?_⟩
    · by_cases hb : validPred r
      · rw [if_pos hb, List.filter_cons_of_pos hb, List.length_cons]
        omega
      · rw [if_neg hb, List.filter_cons_of_neg (by simpa using hb)]
    · by_cases hb : shotTypeContrib r
      · rw [if_pos hb, List.filter_cons_of_pos hb, List.length_cons]
        omega
      · rw [if_neg hb, List.filter_cons_of_neg (by simpa using hb)]
    · by_cases hb : resultContrib r
      · rw [if_pos hb, List.filter_cons_of_pos hb, List.length_cons]
        omega
      · rw [if_neg hb, List.filter_cons_of_neg (by simpa using hb)]
    · by_cases hb : bothContrib r
      · rw [if_pos hb, List.filter_cons_of_pos hb, List.length_cons]
        omega
      · rw [if_neg hb, List.filter_cons_of_neg (by simpa using hb)]

theorem calculate_metrics_spec (results : List SampleResult)
    (m : RunMetrics) (h : _calculate_metrics results = some m) :
    m.valid_predictions = (results.filter validPred).length ∧
    m.shot_type_accuracy = (if m.valid_predictions = 0 then 0 else
      ((results.filter shotTypeContrib).length : Rat) / m.valid_predictions) ∧
    m.result_accuracy = (if m.valid_predictions = 0 then 0 else
      ((results.filter resultContrib).length : Rat) / m.valid_predictions) ∧
    m.both_correct_accuracy = (if m.valid_predictions = 0 then 0 else
      ((results.filter bothContrib).length : Rat) / m.valid_predictions) := by
  unfold _calculate_metrics at h
  by_cases hres : results.length = 0
  · rw [if_pos hres] at h
    cases h
  · rw [if_neg hres] at h
    obtain ⟨h1, h2, h3, h4⟩ := metricsAcc_counts results ⟨0, 0, 0, 0, [], [], []⟩
    cases h
    refine ⟨by simpa using h1, ?_, ?_, ?_⟩
    · dsimp only
      rw [h2]
      simp
    · dsimp only
      rw [h3]
      simp
    · dsimp only
      rw [h4]
      simp

/-- Claim C5, amended.  For every non-empty result list,
`valid_predictions` counts the samples whose prediction has no truthy
`error` value (an absent key, a `null` error and an empty-string error
all count as valid — not merely "no error key"), and the
`shot_type_accuracy`, `result_accuracy` and `both_correct_accuracy`
ratios divide by `valid_predictions`, not by the total sample count. -/
theorem claim_C5_metrics_denominators (results : List SampleResult)
    (m : RunMetrics) (h : _calculate_metrics results = some m) :
    m.valid_predictions = (results.filter validPred).length ∧
    m.shot_type_accuracy = (if m.valid_predictions = 0 then 0 else
      ((results.filter shotTypeContrib).length : Rat) / m.valid_predictions) ∧
    m.result_accuracy = (if m.valid_predictions = 0 then 0 else
      ((results.filter resultContrib).length : Rat) / m.valid_predictions) ∧
    m.both_correct_accuracy = (if m.valid_predictions = 0 then 0 else
      ((results.filter bothContrib).length : Rat) / m.valid_predictions) :=
  calculate_metrics_spec results m h

/-- Witness for the amended C5: two samples, one with a truthy parse
error, so `valid_predictions = 1` (the filter count) and the accuracies
divide by `valid_predictions`. -/
theorem claim_C5_metrics_denominators_witness :
    ∃ m, _calculate_metrics
      [⟨"a", ⟨some "lay_up", some "make"⟩,
        ⟨some "MAKE", some "LAY_UP", some 1, none⟩, 1, 0⟩,
       ⟨"b", ⟨some "lay_up", some "make"⟩,
        ⟨none, none, none, some "Failed to parse JSON"⟩, 1, 0⟩] = some m ∧
      m.valid_predictions =
        (([⟨"a", ⟨some "lay_up", some "make"⟩,
            ⟨some "MAKE", some "LAY_UP", some 1, none⟩, 1, 0⟩,
           ⟨"b", ⟨some "lay_up", some "make"⟩,
            ⟨none, none, none, some "Failed to parse JSON"⟩, 1, 0⟩] :
          List SampleResult).filter validPred).length ∧
      m.both_correct_accuracy = (if m.valid_predictions = 0 then 0 else
        ((([⟨"a", ⟨some "lay_up", some "make"⟩,
            ⟨some "MAKE", some "LAY_UP", some 1, none⟩, 1, 0⟩,
           ⟨"b", ⟨some "lay_up", some "make"⟩,
            ⟨none, none, none, some "Failed to parse JSON"⟩, 1, 0⟩] :
          List SampleResult).filter bothContrib).length : Rat) /
          m.valid_predictions) := by
  obtain ⟨m, hm⟩ : ∃ m, _calculate_metrics
      [⟨"a", ⟨some "lay_up", some "make"⟩,
        ⟨some "MAKE", some "LAY_UP", some 1, none⟩, 1, 0⟩,
       ⟨"b", ⟨some "lay_up", some "make"⟩,
        ⟨none, none, none, some "Failed to parse JSON"⟩, 1, 0⟩] = some m :=
    ⟨_, rfl⟩
  exact ⟨m, hm, (claim_C5_metrics_denominators _ _ hm).1,
    (claim_C5_metrics_denominators _ _ hm).2.2.2⟩

/-- Counterexample to C5 as stated: a prediction whose `error` key is
present but empty (`error = ""`) is still counted as valid by the code
(`pred.get('error')` is falsy), so `valid_predictions` is 1 while the
number of samples with no error key at all is 0. -/
theorem claim_C5_counterexample :
    (_calculate_metrics
      [⟨"c", ⟨some "lay_up", some "miss"⟩, ⟨none, none, none, some ""⟩, 1, 0⟩]).map
        RunMetrics.valid_predictions = some 1 ∧
    (([⟨"c", ⟨some "lay_up", some "miss"⟩, ⟨none, none, none, some ""⟩, 1, 0⟩] :
        List SampleResult).filter fun r => r.prediction.error = none).length = 0 :=
  ⟨by decide, by decide⟩

/-- Claim C4, amended.  `shot_type_accuracy` and `result_accuracy`
count a sample only when both the ground truth and the normalized
prediction of the field are truthy (hence non-null); but
`both_correct_accuracy` counts a valid sample whenever both fields
compare equal, with no non-null guard, so a sample whose ground truth
and normalized prediction are both null on both fields is counted as
correct. -/
theorem claim_C4_accuracy_nullity_guards (results : List SampleResult)
    (m : RunMetrics) (h : _calculate_metrics results = some m) :
    (∀ r : SampleResult, shotTypeContrib r →
      r.ground_truth.shot_type ≠ none ∧
        _normalize_shot_type r.prediction.range ≠ none) ∧
    (∀ r : SampleResult, resultContrib r →
      r.ground_truth.result ≠ none ∧
        _normalize_result r.prediction.make_miss ≠ none) ∧
    m.shot_type_accuracy = (if m.valid_predictions = 0 then 0 else
      ((results.filter shotTypeContrib).length : Rat) / m.valid_predictions) ∧
    m.result_accuracy = (if m.valid_predictions = 0 then 0 else
      ((results.filter resultContrib).length : Rat) / m.valid_predictions) ∧
    m.both_correct_accuracy = (if m.valid_predictions = 0 then 0 else
      ((results.filter bothContrib).length : Rat) / m.valid_predictions) := by
  refine ⟨?_, ?_, ?_, ?_, ?_⟩
  · intro r hr
    simp only [shotTypeContrib, validPred, Bool.and_eq_true, decide_eq_true_eq] at hr
    obtain ⟨-, h1, h2, -⟩ := hr
    refine ⟨fun hn => ?_, fun hn => ?_⟩
    · rw [hn] at h1
      simp [pyTruthy] at h1
    · rw [hn] at h2
      simp [pyTruthy] at h2
  · intro r hr
    simp only [resultContrib, validPred, Bool.and_eq_true, decide_eq_true_eq] at hr
    obtain ⟨-, h1, h2, -⟩ := hr
    refine ⟨fun hn => ?_, fun hn => ?_⟩
    · rw [hn] at h1
      simp [pyTruthy] at h1
    · rw [hn] at h2
      simp [pyTruthy] at h2
  · exact (calculate_metrics_spec results m h).2.1
  · exact (calculate_metrics_spec results m h).2.2.1
  · exact (calculate_metrics_spec results m h).2.2.2

/-- Counterexample to C4 as stated: a valid prediction with null range
and make_miss against null ground truth on both fields is counted as
correct by `both_correct_accuracy` (the code compares `None == None`
without a non-null guard), giving accuracy 1 instead of the 0 the claim
implies. -/
theorem claim_C4_counterexample :
    ∃ m, _calculate_metrics
        [⟨"c", ⟨none, none⟩, ⟨none, none, none, none⟩, 1, 0⟩] = some m ∧
      m.both_correct_accuracy = 1 := by
  refine ⟨_, rfl, ?_⟩
  have hv : (List.foldl metricsStep ⟨0, 0, 0, 0, [], [], []⟩
      [(⟨"c", ⟨none, none⟩, ⟨none, none, none, none⟩, 1, 0⟩ : SampleResult)]).valid_predictions
      = 1 := rfl
  have hb : (List.foldl metricsStep ⟨0, 0, 0, 0, [], [], []⟩
      [(⟨"c", ⟨none, none⟩, ⟨none, none, none, none⟩, 1, 0⟩ : SampleResult)]).both_correct
      = 1 := rfl
  dsimp only
  rw [hv, hb]
  simp

/-- Witness for the amended C4 at a one-sample run with truthy equal
labels on both fields. -/
theorem claim_C4_accuracy_nullity_guards_witness :
    ∃ m, _calculate_metrics
      [⟨"a", ⟨some "lay_up", some "make"⟩,
        ⟨some "MAKE", some "LAY_UP", some 1, none⟩, 1, 0⟩] = some m ∧
      m.shot_type_accuracy = (if m.valid_predictions = 0 then 0 else
        ((([⟨"a", ⟨some "lay_up", some "make"⟩,
            ⟨some "MAKE", some "LAY_UP", some 1, none⟩, 1, 0⟩] :
          List SampleResult).filter shotTypeContrib).length : Rat) /
          m.valid_predictions) ∧
      m.both_correct_accuracy = (if m.valid_predictions = 0 then 0 else
        ((([⟨"a", ⟨some "lay_up", some "make"⟩,
            ⟨some "MAKE", some "LAY_UP", some 1, none⟩, 1, 0⟩] :
          List SampleResult).filter bothContrib).length : Rat) /
          m.valid_predictions) := by
  obtain ⟨m, hm⟩ : ∃ m, _calculate_metrics
      [⟨"a", ⟨some "lay_up", some "make"⟩,
        ⟨some "MAKE", some "LAY_UP", some 1, none⟩, 1, 0⟩] = some m :=
    ⟨_, rfl⟩
  exact ⟨m, hm, (claim_C4_accuracy_nullity_guards _ _ hm).2.2.1,
    (claim_C4_accuracy_nullity_guards _ _ hm).2.2.2.2⟩

/-! ## Model-output parsing (claims C6, C7) -/

/-- Claim C6, amended.  For every input string on which the strict
parse (after fence stripping) and the first-brace/last-brace substring
parse both fail, `_parse_model_output` returns — without raising — the
sentinel Prediction with `error = "Failed to parse JSON"` (not the
claim's `"Failed to parse"`), `confidence = 0.0`, empty `tips`, null
`make_miss` and `range`, and `raw_output` equal to the original input
string. -/
theorem claim_C6_parse_failure_sentinel (raw_text : String)
    (h1 : jsonLoads (cleanMarkdown raw_text) = none)
    (h2 : fallbackParse raw_text = none) :
    _parse_model_output raw_text =
      Json.obj [("make_miss", Json.null), ("range", Json.null),
        ("confidence", Json.num "0.0"), ("tips", Json.arr []),
        ("error", Json.str "Failed to parse JSON"),
        ("raw_output", Json.str raw_text)] := by
  unfold _parse_model_output
  rw [h1, h2]
  rfl

/-- Witness for the amended C6 at the spec's own example input. -/
theorem claim_C6_parse_failure_sentinel_witness :
    jsonLoads (cleanMarkdown "not json at all") = none ∧
    fallbackParse "not json at all" = none ∧
    _parse_model_output "not json at all" =
      Json.obj [("make_miss", Json.null), ("range", Json.null),
        ("confidence", Json.num "0.0"), ("tips", Json.arr []),
        ("error", Json.str "Failed to parse JSON"),
        ("raw_output", Json.str "not json at all")] :=
  ⟨rfl, rfl, claim_C6_parse_failure_sentinel "not json at all" rfl rfl⟩

/-- Counterexample to C6 as stated: the sentinel's error message is
`"Failed to parse JSON"`, not the `"Failed to parse"` the claim
specifies. -/
theorem claim_C6_counterexample :
    getField (_parse_model_output "not json at all") "error" =
      some (Json.str "Failed to parse JSON") ∧
    "Failed to parse JSON" ≠ "Failed to parse" :=
  ⟨rfl, by decide⟩

/-- Claim C7.  `_parse_model_output` strips the markdown fence from the
spec's round-trip input and parses the embedded JSON object exactly,
with its four keys in order and no `error` key. -/
theorem claim_C7_parse_round_trip :
    _parse_model_output
        "```json\n\x7b\"make_miss\":\"MAKE\",\"range\":\"LAY_UP\",\"confidence\":0.9,\"tips\":[\"a\",\"b\",\"c\"]\x7d\n```" =
      Json.obj [("make_miss", Json.str "MAKE"), ("range", Json.str "LAY_UP"),
        ("confidence", Json.num "0.9"),
        ("tips", Json.arr [Json.str "a", Json.str "b", Json.str "c"])] ∧
    getField (_parse_model_output
        "```json\n\x7b\"make_miss\":\"MAKE\",\"range\":\"LAY_UP\",\"confidence\":0.9,\"tips\":[\"a\",\"b\",\"c\"]\x7d\n```")
      "error" = none :=
  ⟨rfl, rfl⟩

/-! ## `evaluate_model` robustness (claim C3) -/

/-- Claim C3's evidence.  First conjunct: the failing input — a run in
which the only sample has a missing video file — makes
`evaluate_model` raise (`ZeroDivisionError` computing
`average_inference_time_s` over the empty `results`), modelled as
`none`, contradicting the claim that the run completes with partial
results.  Second conjunct: when at least one sample succeeds, a
missing-video sample and a raising-inference sample are both skipped
without aborting, and only the successful sample appears in
`results`. -/
theorem claim_C3_evaluate_model_partial_results :
    evaluate_model none [⟨"bad", ⟨none, none⟩, false, none⟩] = none ∧
    (evaluate_model none
      [⟨"bad", ⟨none, none⟩, false, none⟩,
       ⟨"boom", ⟨some "lay_up", some "make"⟩, true, none⟩,
       ⟨"good", ⟨some "lay_up", some "make"⟩, true,
         some (⟨some "MAKE", some "LAY_UP", some 1, none⟩, 1, 2)⟩]).map
      (fun s => s.results.map (·.clip_id)) = some ["good"] := by
  constructor
  · rfl
  · rfl

/-! ## Confusion-matrix construction (claim C8) -/

theorem findSub_boundary (t p : List Char) (ht : ∀ c ∈ t, ¬ c = ' ') :
    findSub [' ', '-', '>', ' '] (t ++ [' ', '-', '>', ' '] ++ p) = some t.length := by
  induction t with
  | nil =>
    have hpre : List.isPrefixOf [' ', '-', '>', ' ']
        ([' ', '-', '>', ' '] ++ p) = true := by
      rw [List.isPrefixOf_iff_prefix]
      exact List.prefix_append _ _
    simp [findSub, hpre]
  | cons c t ih =>
    have hc : ¬ c = ' ' := ht c (List.mem_cons_self _ _)
    have ih' := ih (fun c hc => ht c (List.mem_cons_of_mem _ hc))
    show findSub [' ', '-', '>', ' ']
      (c :: (t ++ [' ', '-', '>', ' '] ++ p)) = some (t.length + 1)
    have hpre : ¬ List.isPrefixOf [' ', '-', '>', ' ']
        (c :: (t ++ [' ', '-', '>', ' '] ++ p)) = true := by
      simp [List.isPrefixOf]
      intro h
      exact absurd h.symm hc
    unfold findSub
    rw [if_neg hpre, ih']
    rfl

theorem findSub_none_of_no_space (p : List Char) (hp : ∀ c ∈ p, ¬ c = ' ') :
    findSub [' ', '-', '>', ' '] p = none := by
  induction p with
  | nil => rfl
  | cons c t ih =>
    have hc : ¬ c = ' ' := hp c (List.mem_cons_self _ _)
    have hpre : List.isPrefixOf [' ', '-', '>', ' '] (c :: t) = false := by
      simp [List.isPrefixOf]
      intro h
      exact absurd h.symm hc
    simp [findSub, hpre, ih (fun c hc => hp c (List.mem_cons_of_mem _ hc))]

theorem splitSub_ne_nil (sep : List Char) (fuel : Nat) (s : List Char) :
    splitSub sep fuel s ≠ [] := by
  cases fuel with
  | zero => simp [splitSub]
  | succ fuel =>
    unfold splitSub
    cases findSub sep s <;> simp

theorem splitSub_single (sep : List Char) (fuel : Nat) (s x : List Char)
    (h : splitSub sep fuel s = [x]) : x = s := by
  cases fuel with
  | zero =>
    simp [splitSub] at h
    exact h.symm
  | succ fuel =>
    unfold splitSub at h
    cases hf : findSub sep s with
    | none =>
      rw [hf] at h
      simp at h
      exact h.symm
    | some i =>
      rw [hf] at h
      have := splitSub_ne_nil sep fuel (s.drop (i + sep.length))
      simp at h
      exact absurd h.2 this

theorem findSub_decomp (sep : List Char) (hsep : sep ≠ []) (s : List Char) (i : Nat)
    (h : findSub sep s = some i) :
    ∃ pre post, s = pre ++ sep ++ post ∧ pre.length = i := by
  induction s generalizing i with
  | nil =>
    unfold findSub at h
    rw [if_neg (by simpa using hsep)] at h
    cases h
  | cons c rest ih =>
    unfold findSub at h
    by_cases hp : List.isPrefixOf sep (c :: rest) = true
    · rw [if_pos hp] at h
      cases h
      rw [List.isPrefixOf_iff_prefix] at hp
      obtain ⟨post, hpost⟩ := hp
      exact ⟨[], post, by simpa using hpost.symm, rfl⟩
    · rw [if_neg hp] at h
      cases hf : findSub sep rest with
      | none => rw [hf] at h; cases h
      | some i' =>
        rw [hf] at h
        simp at h
        obtain ⟨pre, post, hdec, hlen⟩ := ih i' hf
        refine ⟨c :: pre, post, ?_, ?_⟩
        · rw [List.cons_append, List.cons_append, ← hdec]
        · simp [hlen, ← h]

theorem splitSub_step (s : List Char) (i fuel : Nat)
    (h : findSub [' ', '-', '>', ' '] s = some i) :
    splitSub [' ', '-', '>', ' '] (fuel + 1) s =
      s.take i :: splitSub [' ', '-', '>', ' '] fuel (s.drop (i + 4)) := by
  conv_lhs => unfold splitSub
  rw [h]
  rfl

theorem splitSub_whole (s : List Char) (fuel : Nat)
    (h : findSub [' ', '-', '>', ' '] s = none) :
    splitSub [' ', '-', '>', ' '] fuel s = [s] := by
  cases fuel with
  | zero => rfl
  | succ fuel =>
    conv_lhs => unfold splitSub
    rw [h]

theorem pySplit_two (k : String) (hc : strContains " -> " k = true)
    (hlen : (pySplit " -> " k).length ≤ 2) :
    ∃ t p, pySplit " -> " k = [(⟨t⟩ : String), (⟨p⟩ : String)] ∧
      k.data = t ++ [' ', '-', '>', ' '] ++ p ∧
      findSub [' ', '-', '>', ' '] k.data = some t.length := by
  unfold strContains at hc
  rw [Option.isSome_iff_exists] at hc
  obtain ⟨i, hi⟩ := hc
  have hi' : findSub [' ', '-', '>', ' '] k.data = some i := hi
  obtain ⟨pre, post, hdec, hlenpre⟩ :=
    findSub_decomp [' ', '-', '>', ' '] (by simp) k.data i hi'
  have hsplit : splitSub [' ', '-', '>', ' '] (k.data.length + 1) k.data =
      k.data.take i :: splitSub [' ', '-', '>', ' '] k.data.length
        (k.data.drop (i + 4)) :=
    splitSub_step k.data i k.data.length hi'
  have htake : k.data.take i = pre := by
    rw [hdec, List.append_assoc, ← hlenpre, List.take_left]
  have hdrop : k.data.drop (i + 4) = post := by
    rw [hdec, List.drop_left' (by simp [hlenpre])]
  have hone : ∃ x, splitSub [' ', '-', '>', ' '] k.data.length (k.data.drop (i + 4)) = [x] := by
    have hne := splitSub_ne_nil [' ', '-', '>', ' '] k.data.length (k.data.drop (i + 4))
    have hpl : (pySplit " -> " k).length =
        (splitSub [' ', '-', '>', ' '] (k.data.length + 1) k.data).length := by
      unfold pySplit
      simp [show (" -> " : String).data = [' ', '-', '>', ' '] from rfl]
    rw [hpl, hsplit] at hlen
    cases hx : splitSub [' ', '-', '>', ' '] k.data.length (k.data.drop (i + 4)) with
    | nil => exact absurd hx hne
    | cons a l =>
      rw [hx] at hlen
      simp at hlen
      exact ⟨a, by rw [hlen]⟩
  obtain ⟨x, hx⟩ := hone
  have hxpost : x = k.data.drop (i + 4) :=
    splitSub_single [' ', '-', '>', ' '] k.data.length _ x hx
  refine ⟨pre, post, ?_, ?_, ?_⟩
  · unfold pySplit
    rw [show (" -> " : String).data = [' ', '-', '>', ' '] from rfl, hsplit, hx, hxpost,
      htake, hdrop]
    rfl
  · rw [hdec]
  · rw [hi', ← hlenpre]

theorem pySplit_canonical (t p : String)
    (ht : ∀ c ∈ t.data, ¬ c = ' ') (hp : ∀ c ∈ p.data, ¬ c = ' ') :
    pySplit " -> " (t ++ " -> " ++ p) = [t, p] := by
  have hdata : (t ++ " -> " ++ p).data = t.data ++ [' ', '-', '>', ' '] ++ p.data := by
    simp [show (" -> " : String).data = [' ', '-', '>', ' '] from rfl]
  have hfind : findSub [' ', '-', '>', ' '] (t ++ " -> " ++ p).data = some t.data.length := by
    rw [hdata]
    exact findSub_boundary t.data p.data ht
  have htake : (t ++ " -> " ++ p).data.take t.data.length = t.data := by
    rw [hdata, List.append_assoc, List.take_left]
  have hdrop : (t ++ " -> " ++ p).data.drop (t.data.length + 4) = p.data := by
    rw [hdata, List.drop_left' (by simp)]
  unfold pySplit
  rw [show (" -> " : String).data = [' ', '-', '>', ' '] from rfl,
    splitSub_step _ _ _ hfind, htake, hdrop,
    splitSub_whole p.data _ (findSub_none_of_no_space p.data hp)]
  simp

theorem lookup_eq_none_of_not_mem {V : Type} (l : List (String × V)) (k : String)
    (h : k ∉ l.map Prod.fst) : l.lookup k = none := by
  induction l with
  | nil => rfl
  | cons e t ih =>
    have hk : ¬ k = e.1 := by
      intro hc
      exact h (by simp [hc])
    have hb : (k == e.1) = false := beq_eq_false_iff_ne.mpr hk
    simpa [List.lookup, hb] using ih (fun hc => h (by simp [hc]))

theorem getD_set_eq {α : Type} (l : List α) (i : Nat) (v d : α) (h : i < l.length) :
    (l.set i v).getD i d = v := by
  rw [List.getD_eq_getElem?_getD, List.getElem?_set_self (by exact h), Option.getD_some]

theorem getD_set_ne {α : Type} (l : List α) (i i' : Nat) (v d : α) (h : ¬ i = i') :
    (l.set i' v).getD i d = l.getD i d := by
  rw [List.getD_eq_getElem?_getD, List.getElem?_set_ne (fun hc => h hc.symm),
    ← List.getD_eq_getElem?_getD]

theorem get2_set2_eq (m : List (List Nat)) (i j v : Nat)
    (hi : i < m.length) (hj : j < (m.getD i []).length) :
    get2 (set2 m i j v) i j = v := by
  unfold get2 set2
  rw [getD_set_eq _ _ _ _ hi, getD_set_eq _ _ _ _ hj]

theorem get2_set2_ne (m : List (List Nat)) (i j i' j' v : Nat)
    (hi' : i' < m.length) (hne : ¬(i = i' ∧ j = j')) :
    get2 (set2 m i' j' v) i j = get2 m i j := by
  unfold get2 set2
  by_cases hii : i = i'
  · subst hii
    have hjj : ¬ j = j' := fun hc => hne ⟨rfl, hc⟩
    rw [getD_set_eq _ _ _ _ hi', getD_set_ne _ _ _ _ _ hjj]
  · rw [getD_set_ne _ _ _ _ _ hii]

theorem string_ext (a b : String) (h : a.data = b.data) : a = b :=
  congrArg String.mk h

theorem getD_eq_getElem_of_lt {α : Type} (l : List α) (i : Nat) (d : α)
    (h : i < l.length) : l.getD i d = l[i] := by
  rw [List.getD_eq_getElem?_getD, List.getElem?_eq_getElem h, Option.getD_some]

theorem key_contains (a b : String) (ha : ∀ c ∈ a.data, ¬ c = ' ') :
    strContains " -> " (a ++ " -> " ++ b) = true := by
  unfold strContains
  rw [show (" -> " : String).data = [' ', '-', '>', ' '] from rfl,
    show (a ++ " -> " ++ b).data = a.data ++ [' ', '-', '>', ' '] ++ b.data from by
      simp [show (" -> " : String).data = [' ', '-', '>', ' '] from rfl],
    findSub_boundary a.data b.data ha]
  rfl

theorem decomp_unique (k : String) (t p : List Char)
    (hdec : k.data = t ++ [' ', '-', '>', ' '] ++ p)
    (hfst : findSub [' ', '-', '>', ' '] k.data = some t.length)
    (a b : String) (ha : ∀ c ∈ a.data, ¬ c = ' ')
    (hk : k = a ++ " -> " ++ b) :
    t = a.data ∧ p = b.data := by
  have hdata : k.data = a.data ++ [' ', '-', '>', ' '] ++ b.data := by
    rw [hk]
    simp [show (" -> " : String).data = [' ', '-', '>', ' '] from rfl]
  have hfs2 : findSub [' ', '-', '>', ' '] k.data = some a.data.length := by
    rw [hdata]
    exact findSub_boundary _ _ ha
  have hlen : t.length = a.data.length := by
    rw [hfst] at hfs2
    exact Option.some.inj hfs2
  have heq : (t ++ [' ', '-', '>', ' ']) ++ p = (a.data ++ [' ', '-', '>', ' ']) ++ b.data := by
    have := hdec.symm.trans hdata
    simpa [List.append_assoc] using this
  obtain ⟨h2, h3⟩ := List.append_inj heq (by simp [hlen])
  obtain ⟨h4, -⟩ := List.append_inj h2 hlen
  exact ⟨h4, h3⟩

theorem confusion_fold_spec (labels : List String) (n : Nat) (hn : n = labels.length)
    (hlab : labels.Nodup)
    (hsp : ∀ l ∈ labels, ∀ c ∈ l.data, ¬ c = ' ')
    (confusion : List (String × Nat)) :
    ∀ (matrix : List (List Nat)),
      (confusion.map Prod.fst).Nodup →
      (∀ e ∈ confusion, (pySplit " -> " e.1).length ≤ 2) →
      matrix.length = n →
      (∀ i, i < n → (matrix.getD i []).length = n) →
      ∃ M, confusion.foldl (confStep labels) (some matrix) = some M ∧
        M.length = n ∧ (∀ i, i < n → (M.getD i []).length = n) ∧
        ∀ i j, i < n → j < n →
          get2 M i j =
            (confusion.lookup (labels.getD i "" ++ " -> " ++ labels.getD j "")).getD
              (get2 matrix i j) := by
  induction confusion with
  | nil =>
    intro matrix _ _ hdim hrow
    exact ⟨matrix, rfl, hdim, hrow, fun i j _ _ => rfl⟩
  | cons e rest ih =>
    intro matrix hkeys hsplit hdim hrow
    obtain ⟨k, cnt⟩ := e
    rw [List.map_cons, List.nodup_cons] at hkeys
    have hrest2 : ∀ e ∈ rest, (pySplit " -> " e.1).length ≤ 2 :=
      fun e he => hsplit e (List.mem_cons_of_mem _ he)
    by_cases hc : strContains " -> " k = true
    · obtain ⟨t, p, hsplit_eq, hdec, hfst⟩ :=
        pySplit_two k hc (hsplit (k, cnt) (List.mem_cons_self _ _))
      have hstep0 : confStep labels (some matrix) (k, cnt) =
          if (⟨t⟩ : String) ∈ labels ∧ (⟨p⟩ : String) ∈ labels then
            some (set2 matrix (labels.indexOf ⟨t⟩) (labels.indexOf ⟨p⟩) cnt)
          else some matrix := by
        simp only [confStep]
        rw [if_pos hc, hsplit_eq]
      by_cases hmem : (⟨t⟩ : String) ∈ labels ∧ (⟨p⟩ : String) ∈ labels
      · have hit : labels.indexOf (⟨t⟩ : String) < n := by
          rw [hn]
          exact List.indexOf_lt_length.2 hmem.1
        have hjt : labels.indexOf (⟨p⟩ : String) < n := by
          rw [hn]
          exact List.indexOf_lt_length.2 hmem.2
        have hitlab : labels.getD (labels.indexOf (⟨t⟩ : String)) "" = ⟨t⟩ := by
          rw [getD_eq_getElem_of_lt _ _ _ (by omega)]
          exact List.getElem_indexOf _
        have hjtlab : labels.getD (labels.indexOf (⟨p⟩ : String)) "" = ⟨p⟩ := by
          rw [getD_eq_getElem_of_lt _ _ _ (by omega)]
          exact List.getElem_indexOf _
        have hkform : k = (⟨t⟩ : String) ++ " -> " ++ (⟨p⟩ : String) := by
          apply string_ext
          rw [hdec]
          simp [show (" -> " : String).data = [' ', '-', '>', ' '] from rfl]
        set matrix' := set2 matrix (labels.indexOf (⟨t⟩ : String))
          (labels.indexOf (⟨p⟩ : String)) cnt with hmx
        have hdim' : matrix'.length = n := by
          rw [hmx]
          unfold set2
          rw [List.length_set]
          exact hdim
        have hrow' : ∀ i, i < n → (matrix'.getD i []).length = n := by
          intro i hi
          rw [hmx]
          unfold set2
          by_cases hii : i = labels.indexOf (⟨t⟩ : String)
          · subst hii
            rw [getD_set_eq _ _ _ _ (by omega), List.length_set]
            exact hrow _ hi
          · rw [getD_set_ne _ _ _ _ _ hii]
            exact hrow i hi
        obtain ⟨M, hM, hMdim, hMrow, hMent⟩ := ih matrix' hkeys.2 hrest2 hdim' hrow'
        refine ⟨M, ?_, hMdim, hMrow, ?_⟩
        · rw [List.foldl_cons, hstep0, if_pos hmem, hM]
        · intro i j hi hj
          by_cases hij : i = labels.indexOf (⟨t⟩ : String) ∧ j = labels.indexOf (⟨p⟩ : String)
          · obtain ⟨rfl, rfl⟩ := hij
            have hkey : labels.getD (labels.indexOf (⟨t⟩ : String)) "" ++ " -> " ++
                labels.getD (labels.indexOf (⟨p⟩ : String)) "" = k := by
              rw [hitlab, hjtlab, hkform]
            have hlook : rest.lookup (labels.getD (labels.indexOf (⟨t⟩ : String)) "" ++
                " -> " ++ labels.getD (labels.indexOf (⟨p⟩ : String)) "") = none := by
              rw [hkey]
              exact lookup_eq_none_of_not_mem rest k hkeys.1
            rw [hMent _ _ hi hj, hlook, Option.getD_none]
            have hbeq : ((labels.getD (labels.indexOf (⟨t⟩ : String)) "" ++ " -> " ++
                labels.getD (labels.indexOf (⟨p⟩ : String)) "") == k) = true := by
              rw [hkey]
              exact beq_self_eq_true k
            rw [List.lookup, hbeq]
            simp only [Option.getD_some]
            rw [hmx]
            exact get2_set2_eq matrix _ _ cnt (by omega) (by rw [hrow _ hit]; omega)
          · have hkne : ¬ (labels.getD i "" ++ " -> " ++ labels.getD j "") = k := by
              intro hkeq
              have hlab_i : ∀ c ∈ (labels.getD i "").data, ¬ c = ' ' := by
                apply hsp
                rw [getD_eq_getElem_of_lt _ _ _ (by omega)]
                exact List.getElem_mem _
              obtain ⟨ht_eq, hp_eq⟩ := decomp_unique k t p hdec hfst
                (labels.getD i "") (labels.getD j "") hlab_i hkeq.symm
              apply hij
              constructor
              · have : (⟨t⟩ : String) = labels.getD i "" := string_ext _ _ (by simpa using ht_eq)
                rw [this, getD_eq_getElem_of_lt _ _ _ (by omega),
                  List.indexOf_getElem hlab i (by omega)]
              · have : (⟨p⟩ : String) = labels.getD j "" := string_ext _ _ (by simpa using hp_eq)
                rw [this, getD_eq_getElem_of_lt _ _ _ (by omega),
                  List.indexOf_getElem hlab j (by omega)]
            have hbeq : ((labels.getD i "" ++ " -> " ++ labels.getD j "") == k) = false :=
              beq_eq_false_iff_ne.mpr hkne
            rw [hMent _ _ hi hj, List.lookup, hbeq]
            have hinit : get2 matrix' i j = get2 matrix i j := by
              rw [hmx]
              exact get2_set2_ne matrix i j _ _ cnt (by omega) hij
            rw [hinit]
      · obtain ⟨M, hM, hMdim, hMrow, hMent⟩ := ih matrix hkeys.2 hrest2 hdim hrow
        refine ⟨M, ?_, hMdim, hMrow, ?_⟩
        · rw [List.foldl_cons, hstep0, if_neg hmem, hM]
        · intro i j hi hj
          have hkne : ¬ (labels.getD i "" ++ " -> " ++ labels.getD j "") = k := by
            intro hkeq
            have hlab_i : ∀ c ∈ (labels.getD i "").data, ¬ c = ' ' := by
              apply hsp
              rw [getD_eq_getElem_of_lt _ _ _ (by omega)]
              exact List.getElem_mem _
            obtain ⟨ht_eq, hp_eq⟩ := decomp_unique k t p hdec hfst
              (labels.getD i "") (labels.getD j "") hlab_i hkeq.symm
            apply hmem
            constructor
            · have : (⟨t⟩ : String) = labels.getD i "" := string_ext _ _ (by simpa using ht_eq)
              rw [this, getD_eq_getElem_of_lt _ _ _ (by omega)]
              exact List.getElem_mem _
            · have : (⟨p⟩ : String) = labels.getD j "" := string_ext _ _ (by simpa using hp_eq)
              rw [this, getD_eq_getElem_of_lt _ _ _ (by omega)]
              exact List.getElem_mem _
          have hbeq : ((labels.getD i "" ++ " -> " ++ labels.getD j "") == k) = false :=
            beq_eq_false_iff_ne.mpr hkne
          rw [hMent _ _ hi hj, List.lookup, hbeq]
    · have hstep0 : confStep labels (some matrix) (k, cnt) = some matrix := by
        simp only [confStep]
        rw [if_neg hc]
      obtain ⟨M, hM, hMdim, hMrow, hMent⟩ := ih matrix hkeys.2 hrest2 hdim hrow
      refine ⟨M, ?_, hMdim, hMrow, ?_⟩
      · rw [List.foldl_cons, hstep0, hM]
      · intro i j hi hj
        have hkne : ¬ (labels.getD i "" ++ " -> " ++ labels.getD j "") = k := by
          intro hkeq
          apply hc
          rw [← hkeq]
          apply key_contains
          apply hsp
          rw [getD_eq_getElem_of_lt _ _ _ (by omega)]
          exact List.getElem_mem _
        have hbeq : ((labels.getD i "" ++ " -> " ++ labels.getD j "") == k) = false :=
          beq_eq_false_iff_ne.mpr hkne
        rw [hMent _ _ hi hj, List.lookup, hbeq]

/-- Claim C8, amended.  For a duplicate-free label list whose labels
contain no space and a confusion dictionary with distinct keys, each
containing the separator `" -> "` at most once, `_build_confusion_matrix`
returns the square matrix whose entry `(i, j)` is the count recorded
under the key `labels[i] ++ " -> " ++ labels[j]` (0 if absent); keys
lacking the separator, or whose true or predicted label is not in the
label list, are silently dropped.  (As stated the claim is false: a key
containing the separator twice makes the two-variable unpacking raise
`ValueError` instead of being dropped — see the counterexample.) -/
theorem claim_C8_build_confusion_matrix (confusion : List (String × Nat))
    (labels : List String)
    (hlab : labels.Nodup)
    (hsp : ∀ l ∈ labels, ∀ c ∈ l.data, ¬ c = ' ')
    (hkeys : (confusion.map Prod.fst).Nodup)
    (hsplit : ∀ e ∈ confusion, (pySplit " -> " e.1).length ≤ 2) :
    _build_confusion_matrix confusion labels =
      some (specConfusionMatrix confusion labels, labels) := by
  have hrow0 : ∀ i, i < labels.length →
      ((List.replicate labels.length (List.replicate labels.length 0)).getD i []).length =
        labels.length := by
    intro i hi
    rw [getD_eq_getElem_of_lt _ _ _ (by simpa using hi)]
    simp
  obtain ⟨M, hM, hMdim, hMrow, hMent⟩ :=
    confusion_fold_spec labels labels.length rfl hlab hsp confusion
      (List.replicate labels.length (List.replicate labels.length 0)) hkeys hsplit
      (by simp) hrow0
  have hinit : ∀ i j, i < labels.length → j < labels.length →
      get2 (List.replicate labels.length (List.replicate labels.length 0)) i j = 0 := by
    intro i j hi hj
    unfold get2
    have h1 : (List.replicate labels.length (List.replicate labels.length (0 : Nat))).getD i [] =
        List.replicate labels.length 0 := by
      rw [getD_eq_getElem_of_lt _ _ _ (by simpa using hi), List.getElem_replicate]
    have h2 : (List.replicate labels.length (0 : Nat)).getD j 0 = 0 := by
      rw [getD_eq_getElem_of_lt _ _ _ (by simpa using hj), List.getElem_replicate]
    rw [h1, h2]
  have hMspec : M = specConfusionMatrix confusion labels := by
    apply List.ext_getElem
    · rw [hMdim]
      simp [specConfusionMatrix]
    · intro i h1 h2
      have hi : i < labels.length := by rwa [hMdim] at h1
      apply List.ext_getElem
      · have hMr : (M.getD i []).length = labels.length := hMrow i hi
        rw [getD_eq_getElem_of_lt _ _ _ h1] at hMr
        rw [hMr]
        simp [specConfusionMatrix, List.getElem_map, List.getElem_range]
      · intro j hj1 hj2
        have hj : j < labels.length := by
          have hMr : (M.getD i []).length = labels.length := hMrow i hi
          rw [getD_eq_getElem_of_lt _ _ _ h1] at hMr
          rwa [hMr] at hj1
        have hent := hMent i j hi hj
        rw [hinit i j hi hj] at hent
        unfold get2 at hent
        rw [getD_eq_getElem_of_lt _ _ _ h1, getD_eq_getElem_of_lt _ _ _ hj1] at hent
        rw [hent]
        simp [specConfusionMatrix, List.getElem_map, List.getElem_range]
  unfold _build_confusion_matrix
  rw [hM, hMspec]
  rfl

/-- Witness for the amended C8 at the claim's own example:
`[("make -> make", 3), ("make -> miss", 1)]` over labels
`["make", "miss"]` yields `[[3, 1], [0, 0]]`. -/
theorem claim_C8_build_confusion_matrix_witness :
    _build_confusion_matrix [("make -> make", 3), ("make -> miss", 1)]
        ["make", "miss"] =
      some (specConfusionMatrix [("make -> make", 3), ("make -> miss", 1)]
        ["make", "miss"], ["make", "miss"]) ∧
    specConfusionMatrix [("make -> make", 3), ("make -> miss", 1)]
        ["make", "miss"] = [[3, 1], [0, 0]] :=
  ⟨claim_C8_build_confusion_matrix [("make -> make", 3), ("make -> miss", 1)]
      ["make", "miss"] (by decide) (by decide) (by decide) (by decide),
    rfl⟩

/-- Counterexample to C8 as stated: a key containing the separator
twice passes the `" -> " in transition` guard but unpacks into three
parts, so the code raises `ValueError` (modelled `none`) instead of
silently dropping the key and returning a matrix. -/
theorem claim_C8_counterexample :
    _build_confusion_matrix [("make -> make -> make", 1)] ["make", "miss"] = none := rfl

end BasketballEval
